import Mathlib

/-!
Verification development for the astrogaia-python membership-filtering engine.

The Python source (astrogaia-python.py) is shallowly embedded here:
  - numpy floating-point numbers are modelled as exact rationals;
  - numpy vectorized operations become List operations;
  - functions that can terminate the process (sys.exit, failed assert,
    numpy errors on empty input) return Option, with none for the fatal path;
  - np.cos/np.sin composed with np.radians are modelled by explicit function
    parameters (cosD, sinD : Rat → Rat), since the cosine of a rational angle
    in degrees is in general irrational.  Every property proved about the
    ellipse search is proved for all such trig models, which subsumes the
    floating-point cosine/sine of the source.
  - np.sqrt is modelled by rat_sqrt below, exact on perfect squares of
    rationals (the only points at which any proof or witness in this file
    evaluates it).
-/

/-- Floor square root on naturals by linear scan; kernel-reducible model of
integer square root, exact on perfect squares. -/
def nat_sqrt (n : ℕ) : ℕ :=
  (List.range (n + 1)).foldl (fun acc k => if k * k ≤ n then k else acc) 0

/-- Model of np.sqrt on nonnegative rationals: square root of numerator over
square root of denominator.  Exact whenever the argument is the square of a
rational; an approximation elsewhere (the source computes in floating point,
which is likewise inexact there). -/
def rat_sqrt (q : ℚ) : ℚ :=
  (nat_sqrt q.num.toNat : ℚ) / (nat_sqrt q.den : ℚ)

/-- Model of np.median: sort, take the middle element (odd length) or the
mean of the two middle elements (even length).  np.median of an empty array
is NaN in numpy; the model returns 0 there (no claim depends on that value). -/
def np_median (l : List ℚ) : ℚ :=
  match l with
  | [] => 0
  | _ =>
    let s := List.insertionSort (· ≤ ·) l
    let n := l.length
    if n % 2 = 1 then s.getD (n / 2) 0
    else (s.getD (n / 2 - 1) 0 + s.getD (n / 2) 0) / 2

/-- Model of np.std(l, ddof=1): sample standard deviation.  numpy yields NaN
for fewer than two samples (division by zero); the model returns 0 there
(such bins are rejected by validation before the value is ever used). -/
def np_std_ddof1 (l : List ℚ) : ℚ :=
  if l.length ≤ 1 then 0
  else rat_sqrt ((l.map (fun x => (x - l.sum / l.length) ^ 2)).sum / ((l.length : ℚ) - 1))

/-- Model of np.amax; none models the ValueError numpy raises on an empty array. -/
def np_amax (l : List ℚ) : Option ℚ :=
  match l with
  | [] => none
  | x :: xs => some (xs.foldl max x)

/-- Model of np.amin; none models the ValueError numpy raises on an empty array. -/
def np_amin (l : List ℚ) : Option ℚ :=
  match l with
  | [] => none
  | x :: xs => some (xs.foldl min x)

/-- Round to the nearest integer, ties to even: the rounding used by Python's
round() on numpy floats. -/
def round_half_even (q : ℚ) : ℤ :=
  let f := ⌊q⌋
  if q - f < 1 / 2 then f
  else if 1 / 2 < q - f then f + 1
  else if f % 2 = 0 then f else f + 1

/-- Model of round(x, 3) as used on np.median results. -/
def np_round3 (q : ℚ) : ℚ :=
  (round_half_even (q * 1000) : ℚ) / 1000

/-- Model of np.linspace(minimum, maximum, num): num evenly spaced values,
both endpoints included for num at least 2. -/
def np_linspace (minimum maximum : ℚ) (num : ℕ) : List ℚ :=
  (List.range num).map (fun (i : ℕ) => minimum + (maximum - minimum) * (i : ℚ) / ((num : ℚ) - 1))

/-- One catalog row, restricted to the numeric columns the filtering engine
reads (astrogaia-python.py uses an astropy Table; unused columns omitted). -/
structure GaiaRecord where
  pmra : ℚ
  pmdec : ℚ
  parallax : ℚ
  phot_g_mean_mag : ℚ
  phot_bp_mean_mag : ℚ
  phot_rp_mean_mag : ℚ
  astrometric_gof_al : ℚ

/-- Source class ellipseVPDCenter (line 1600): adopted center in proper-motion space. -/
structure ellipseVPDCenter where
  pmra : ℚ
  pmdec : ℚ

/-- Source class EllipseClass (lines 1696-1705). -/
structure EllipseClass where
  center_x : ℚ
  center_y : ℚ
  width : ℚ
  height : ℚ
  inclination : ℚ

/-- Source class IteratorClass (lines 1708-1715).  n_step is a ℕ here:
np.linspace raises on a negative count, and the source always passes the
positive argparse values. -/
structure IteratorClass where
  minimum : ℚ
  maximum : ℚ
  n_step : ℕ

/-- Source check_if_max_value (lines 1731-1739). -/
def check_if_max_value (value : ℕ) (current_max : ℕ) : ℕ × Bool :=
  if value > current_max then (value, true) else (current_max, false)

/-- Source DefineEllipse (lines 1742-1760), per point: normalized squared
radius of (x, y) in the rotated ellipse.  cosD/sinD model
np.cos(np.radians ·)/np.sin(np.radians ·). -/
def DefineEllipse (cosD sinD : ℚ → ℚ) (x y x_center y_center : ℚ)
    (ell_width ell_height angle_inclination : ℚ) : ℚ :=
  let cos_angle := cosD (180 - angle_inclination)
  let sin_angle := sinD (180 - angle_inclination)
  let xc := x - x_center
  let yc := y - y_center
  let xct := xc * cos_angle - yc * sin_angle
  let yct := xc * sin_angle + yc * cos_angle
  xct ^ 2 / (ell_width / 2) ^ 2 + yct ^ 2 / (ell_height / 2) ^ 2

/-- The counter_in computation of loop_Montecarlo (lines 1778-1784): number of
points whose DefineEllipse radius is at most 1. -/
def stars_inside_count (cosD sinD : ℚ → ℚ) (x y : List ℚ)
    (pmra_center pmdec_center : ℚ) (c : ℚ × ℚ × ℚ) : ℕ :=
  ((x.zip y).map (fun p => DefineEllipse cosD sinD p.1 p.2 pmra_center pmdec_center
      c.1 c.2.1 c.2.2)).countP (fun r => r ≤ 1)

/-- One innermost-loop iteration of loop_Montecarlo (lines 1774-1788): skip a
degenerate width = height combination, otherwise update the running maximum
and, if a new maximum was found, the tracked ellipse parameters. -/
def montecarlo_step (cosD sinD : ℚ → ℚ) (x y : List ℚ)
    (pmra_center pmdec_center : ℚ) (s : ℕ × EllipseClass) (c : ℚ × ℚ × ℚ) :
    ℕ × EllipseClass :=
  if c.1 = c.2.1 then s
  else
    let counter_in := stars_inside_count cosD sinD x y pmra_center pmdec_center c
    let r := check_if_max_value counter_in s.1
    (r.1, if r.2 then
      { center_x := pmra_center, center_y := pmdec_center,
        width := c.1, height := c.2.1, inclination := c.2.2 }
      else s.2)

/-- Source loop_Montecarlo (lines 1763-1793): triple nested loop over widths,
heights and inclinations, starting from max_in_stars = 0 and an all-zero
EllipseClass (progress reporting of the source omitted: it has no effect on
the returned value). -/
def loop_Montecarlo (cosD sinD : ℚ → ℚ) (x y : List ℚ)
    (w_array h_array a_array : List ℚ) (pmra_center pmdec_center : ℚ) :
    EllipseClass :=
  (w_array.foldl (fun s w_it =>
      h_array.foldl (fun s h_it =>
        a_array.foldl (fun s angle_it =>
          montecarlo_step cosD sinD x y pmra_center pmdec_center s
            (w_it, h_it, angle_it)) s) s)
    ((0 : ℕ), { center_x := 0, center_y := 0, width := 0, height := 0, inclination := 0 })).2

/-- All (width, height, inclination) combinations in the iteration order of
loop_Montecarlo: width outermost, height middle, inclination innermost. -/
def ellipse_combos (w_array h_array a_array : List ℚ) : List (ℚ × ℚ × ℚ) :=
  w_array.flatMap (fun w_it => h_array.flatMap (fun h_it =>
    a_array.map (fun angle_it => (w_it, h_it, angle_it))))

/-- The largest inside-count reached over the non-degenerate combinations of a
list, starting from a given initial maximum (0 at the top of loop_Montecarlo). -/
def montecarlo_best_count (cosD sinD : ℚ → ℚ) (x y : List ℚ)
    (pmra_center pmdec_center : ℚ) (combos : List (ℚ × ℚ × ℚ)) (init : ℕ) : ℕ :=
  combos.foldl (fun m c =>
    if c.1 = c.2.1 then m
    else max m (stars_inside_count cosD sinD x y pmra_center pmdec_center c)) init

/-- The first non-degenerate combination, in loop order, whose inside-count
attains the maximum inside-count of the whole grid. -/
def montecarlo_first_best (cosD sinD : ℚ → ℚ) (x y : List ℚ)
    (pmra_center pmdec_center : ℚ) (combos : List (ℚ × ℚ × ℚ)) : Option (ℚ × ℚ × ℚ) :=
  combos.find? (fun c => decide (c.1 ≠ c.2.1) &&
    decide (stars_inside_count cosD sinD x y pmra_center pmdec_center c =
      montecarlo_best_count cosD sinD x y pmra_center pmdec_center combos 0))

/-- Source count_stars_inside_ellipse (lines 1796-1815): extract pmra/pmdec
columns, discretize the three iterator ranges with np.linspace, and run
loop_Montecarlo. -/
def count_stars_inside_ellipse (cosD sinD : ℚ → ℚ)
    (pmra_center pmdec_center : ℚ) (original_data : List GaiaRecord)
    (width_iterator height_iterator angle_iterator : IteratorClass) : EllipseClass :=
  let x := original_data.map (fun r => r.pmra)
  let y := original_data.map (fun r => r.pmdec)
  let width_range := np_linspace width_iterator.minimum width_iterator.maximum width_iterator.n_step
  let height_range := np_linspace height_iterator.minimum height_iterator.maximum height_iterator.n_step
  let angle_range := np_linspace angle_iterator.minimum angle_iterator.maximum angle_iterator.n_step
  loop_Montecarlo cosD sinD x y width_range height_range angle_range pmra_center pmdec_center

/-- ASCII lowercase conversion, as str.lower() acts on the filter-name
strings the program accepts. -/
def lower_ascii (c : Char) : Char :=
  if 'A' ≤ c ∧ c ≤ 'Z' then Char.ofNat (c.toNat + 32) else c

/-- Source get_mag_filter_name (lines 2258-2269): strip underscores,
lowercase, and map to the canonical filter name; none models the sys.exit
on an unrecognized Gaia filter. -/
def get_mag_filter_name (filter_name : String) : Option String :=
  let mag_filter := String.mk ((filter_name.data.filter (fun c => c ≠ '_')).map lower_ascii)
  if mag_filter = ("grp") then some ("G_RP")
  else if mag_filter = ("gbp") then some ("G_BP")
  else if mag_filter = ("g") then some ("G")
  else none

/-- Source select_gaia_filter_key_param (lines 2368-2377).  The source
returns the astropy column name; the model returns the corresponding record
accessor.  none models the sys.exit on an invalid filter name. -/
def select_gaia_filter_key_param (filter_name : String) : Option (GaiaRecord → ℚ) :=
  if filter_name = ("G_RP") then some (fun r => r.phot_rp_mean_mag)
  else if filter_name = ("G_BP") then some (fun r => r.phot_bp_mean_mag)
  else if filter_name = ("G") then some (fun r => r.phot_g_mean_mag)
  else none

/-- Configuration fields of the argparse namespace consumed by the Cordoni
filtering path (definitions at lines 326-369 of the source). -/
structure CordoniArgs where
  set_mag_filter : String
  set_limits : Bool
  mag_lower_limit : ℚ
  mag_upper_limit : ℚ
  sigma : ℚ
  n_divisions : ℤ
  n_iterations : ℤ
  no_as_gof_al : Bool
  no_mu_R : Bool
  no_parallax : Bool
  re_compute_ellipse_center : Bool

/-- Source check_min_and_max_values (lines 2212-2236): choose the Cordoni
magnitude limits (custom or default), then replace the maximum with the upper
limit whenever it exceeds the LOWER limit, and raise the minimum to the lower
limit when it falls below it. -/
def check_min_and_max_values (minValue maxValue : ℚ) (useCustomLimits : Bool)
    (lower_mag upper_mag : ℚ)
    (default_lower_mag : ℚ := 10.5) (default_upper_mag : ℚ := 19.5) : ℚ × ℚ :=
  let Cordoni_lower_mag := if useCustomLimits then lower_mag else default_lower_mag
  let Cordoni_upper_mag := if useCustomLimits then upper_mag else default_upper_mag
  let maxValue := if maxValue > Cordoni_lower_mag then Cordoni_upper_mag else maxValue
  let minValue := if minValue < Cordoni_lower_mag then Cordoni_lower_mag else minValue
  (minValue, maxValue)

/-- Source get_bin_size (lines 2239-2255).  none models the failed assert for
0 or 1 divisions and the numpy error on an empty magnitude column. -/
def get_bin_size (args : CordoniArgs) (values : List ℚ) (numberOfDivisions : ℤ) :
    Option (ℚ × ℚ × ℚ) :=
  if numberOfDivisions = 0 ∨ numberOfDivisions = 1 then none
  else do
    let maxValue ← np_amax values
    let minValue ← np_amin values
    let mm := check_min_and_max_values minValue maxValue args.set_limits
      args.mag_lower_limit args.mag_upper_limit
    pure (mm.2, mm.1, (mm.2 - mm.1) / ((1 : ℚ) * (numberOfDivisions : ℚ)))

/-- Source class parameterList (lines 2112-2119). -/
structure parameterList where
  G_BP : List ℚ := []
  G_RP : List ℚ := []
  G : List ℚ := []
  as_gof_al : List ℚ := []
  parallax : List ℚ := []
  mu_R : List ℚ := []

/-- Source estimate_mu_sub_R (lines 2200-2209): distance to the adopted
center in proper-motion space. -/
def estimate_mu_sub_R (PM_alpha PM_delta previous_PM_alpha_median previous_PM_delta_median : ℚ) : ℚ :=
  rat_sqrt ((PM_alpha - previous_PM_alpha_median) ^ 2 + (PM_delta - previous_PM_delta_median) ^ 2)

/-- Source which_parameter (lines 2180-2197); none models the sys.exit on an
invalid parameter name. -/
def which_parameter (parameters_in_list : parameterList) (paramName : String) : Option (List ℚ) :=
  if paramName = ("astrometric_gof_al") ∨ paramName = ("as_gof_al") then some parameters_in_list.as_gof_al
  else if paramName = ("phot_rp_mean_mag") ∨ paramName = ("G_RP") then some parameters_in_list.G_RP
  else if paramName = ("phot_bp_mean_mag") ∨ paramName = ("G_BP") then some parameters_in_list.G_BP
  else if paramName = ("phot_g_mean_mag") ∨ paramName = ("G") then some parameters_in_list.G
  else if paramName = ("parallax") then some parameters_in_list.parallax
  else if paramName = ("mu_R") ∨ paramName = ("muR") then some parameters_in_list.mu_R
  else none

/-- Source get_important_parameters (lines 2149-2177): per-record parallel
lists of the six filtered quantities (the internal equal-length check of the
source always succeeds, all lists being built from the same rows). -/
def get_important_parameters (original_data : List GaiaRecord) (ellipse_center : ellipseVPDCenter) :
    parameterList :=
  { G_BP := original_data.map (fun d => d.phot_bp_mean_mag)
    G_RP := original_data.map (fun d => d.phot_rp_mean_mag)
    G := original_data.map (fun d => d.phot_g_mean_mag)
    as_gof_al := original_data.map (fun d => d.astrometric_gof_al)
    parallax := original_data.map (fun d => d.parallax)
    mu_R := original_data.map (fun d =>
      estimate_mu_sub_R d.pmra d.pmdec ellipse_center.pmra ellipse_center.pmdec) }

/-- Source class Bin (lines 2122-2141), with the per-list medians and sample
standard deviations its post-init hook computes stored as fields. -/
structure Bin where
  ID : ℕ
  params : parameterList
  minVal_mag : ℚ
  maxVal_mag : ℚ
  median_G_RP : ℚ
  median_G_BP : ℚ
  median_G : ℚ
  median_as_gof_al : ℚ
  median_parallax : ℚ
  median_mu_R : ℚ
  std_dev_G_RP : ℚ
  std_dev_G_BP : ℚ
  std_dev_G : ℚ
  std_dev_as_gof_al : ℚ
  std_dev_parallax : ℚ
  std_dev_mu_R : ℚ

/-- Constructor for Bin replicating the dataclass post-init statistics
(source lines 2129-2141). -/
def mkBin (ID : ℕ) (params : parameterList) (minVal_mag maxVal_mag : ℚ) : Bin :=
  { ID := ID, params := params, minVal_mag := minVal_mag, maxVal_mag := maxVal_mag
    median_G_RP := np_median params.G_RP
    median_G_BP := np_median params.G_BP
    median_G := np_median params.G
    median_as_gof_al := np_median params.as_gof_al
    median_parallax := np_median params.parallax
    median_mu_R := np_median params.mu_R
    std_dev_G_RP := np_std_ddof1 params.G_RP
    std_dev_G_BP := np_std_ddof1 params.G_BP
    std_dev_G := np_std_ddof1 params.G
    std_dev_as_gof_al := np_std_ddof1 params.as_gof_al
    std_dev_parallax := np_std_ddof1 params.parallax
    std_dev_mu_R := np_std_ddof1 params.mu_R }

/-- Source class TotalBins (lines 2144-2146). -/
structure TotalBins where
  bins : List Bin := []

/-- The record-collection loop inside one bin of create_bins (source lines
2408-2425): a record joins the bin iff its selected magnitude lies in the
half-open bin interval and in the sentinel range, and then all six parallel
lists receive its values, in record order. -/
def collect_bin_params (key : GaiaRecord → ℚ) (astrodata : List GaiaRecord)
    (minMag_mag_bin maxMag_mag_bin previous_median_PM_RA previous_median_PM_DEC : ℚ) :
    parameterList :=
  match astrodata with
  | [] => {}
  | tempData :: rest =>
    let p := collect_bin_params key rest minMag_mag_bin maxMag_mag_bin
      previous_median_PM_RA previous_median_PM_DEC
    if (minMag_mag_bin ≤ key tempData ∧ key tempData < maxMag_mag_bin) ∧
        (-25 < key tempData ∧ key tempData ≤ 25) then
      { G_BP := tempData.phot_bp_mean_mag :: p.G_BP
        G_RP := tempData.phot_rp_mean_mag :: p.G_RP
        G := tempData.phot_g_mean_mag :: p.G
        as_gof_al := tempData.astrometric_gof_al :: p.as_gof_al
        parallax := tempData.parallax :: p.parallax
        mu_R := estimate_mu_sub_R tempData.pmra tempData.pmdec
          previous_median_PM_RA previous_median_PM_DEC :: p.mu_R }
    else p

/-- Source create_bins (lines 2380-2428): split the data into nDivision
magnitude bins of equal width between the clamped minimum and maximum. -/
def create_bins (args : CordoniArgs) (astrodata : List GaiaRecord) (nDivision : ℤ)
    (ellipse_center : ellipseVPDCenter) : Option (TotalBins × ℚ × ℚ × ℚ) := do
  let mag_filter_name ← get_mag_filter_name args.set_mag_filter
  let key_gaia_table ← select_gaia_filter_key_param mag_filter_name
  let mag_gaia_data := astrodata.map key_gaia_table
  let mmb ← get_bin_size args mag_gaia_data nDivision
  let (maxVal, minVal, binVal) := mmb
  let previous_median_PM_RA := ellipse_center.pmra
  let previous_median_PM_DEC := ellipse_center.pmdec
  let bins := (List.range nDivision.toNat).map (fun (j : ℕ) =>
    let minMag_mag_bin := minVal + binVal * (j : ℚ)
    let maxMag_mag_bin := minVal + binVal * ((j : ℚ) + 1)
    mkBin (j + 1)
      (collect_bin_params key_gaia_table astrodata minMag_mag_bin maxMag_mag_bin
        previous_median_PM_RA previous_median_PM_DEC)
      minMag_mag_bin maxMag_mag_bin)
  pure (⟨bins⟩, maxVal, minVal, binVal)

/-- The filter-name dispatch repeated at source lines 2347-2355: the list of
selected-magnitude values stored in a bin. -/
def bin_mag_values (filter_name : String) : Option (Bin → List ℚ) :=
  if filter_name = ("G_RP") then some (fun b => b.params.G_RP)
  else if filter_name = ("G_BP") then some (fun b => b.params.G_BP)
  else if filter_name = ("G") then some (fun b => b.params.G)
  else none

/-- Source check_if_total_bins_has_at_least_2_elems_or_more (lines 2341-2365):
every bin needs at least minimum_per_bin elements both in its
astrometric_gof_al list and in its selected-magnitude list; none models the
sys.exit on an invalid filter name. -/
def check_if_total_bins_has_at_least_2_elems_or_more (totalBins : TotalBins)
    (filter_name : String) (_nDivisions : ℤ) (minimum_per_bin : ℕ := 2) : Option Bool := do
  let magValues ← bin_mag_values filter_name
  pure (totalBins.bins.all (fun bin_it =>
    decide (minimum_per_bin ≤ bin_it.params.as_gof_al.length) &&
    decide (minimum_per_bin ≤ (magValues bin_it).length)))

/-- The while-loop of get_and_check_created_bins (source lines 2441-2458),
made structural on a fuel argument: fuel counts the decrements available
before the divisions-below-2 fatal exit, so fuel = (initial divisions - 2)
reproduces the source loop exactly; none models sys.exit. -/
def get_and_check_bins_loop (args : CordoniArgs) (astrodata : List GaiaRecord)
    (ellipse_center : ellipseVPDCenter) (mag_filter_name : String) :
    ℕ → ℤ → Option (TotalBins × ℤ)
  | fuel, n_divisions_for_bins =>
    match create_bins args astrodata n_divisions_for_bins ellipse_center with
    | none => none
    | some (totalCustomBins, _, _, _) =>
      match check_if_total_bins_has_at_least_2_elems_or_more totalCustomBins
          mag_filter_name n_divisions_for_bins with
      | none => none
      | some true => some (totalCustomBins, n_divisions_for_bins)
      | some false =>
        match fuel with
        | 0 => none
        | fuel' + 1 => get_and_check_bins_loop args astrodata ellipse_center
            mag_filter_name fuel' (n_divisions_for_bins - 1)

/-- Source get_and_check_created_bins (lines 2431-2462): shrink-and-retry the
division count until every bin is valid.  The division count actually used is
returned with the bins, modelling the setattr write-back into the caller's
argparse namespace. -/
def get_and_check_created_bins (args : CordoniArgs) (astrodata : List GaiaRecord)
    (ellipse_center : ellipseVPDCenter) : Option (TotalBins × ℤ) := do
  let mag_filter_name ← get_mag_filter_name args.set_mag_filter
  get_and_check_bins_loop args astrodata ellipse_center mag_filter_name
    (args.n_divisions - 2).toNat args.n_divisions

/-- Source get_median_pmra_pmdec (lines 2816-2822): median proper motion of
the data, rounded to 3 decimal places. -/
def get_median_pmra_pmdec (data : List GaiaRecord) : ellipseVPDCenter :=
  { pmra := np_round3 (np_median (data.map (fun d => d.pmra)))
    pmdec := np_round3 (np_median (data.map (fun d => d.pmdec))) }

/-- Source recycle_center_ellipse (lines 2943-2949). -/
def recycle_center_ellipse (identified : String) : Bool :=
  if identified = ("GlobularCluster") ∨ identified = ("OpenCluster") then true
  else if identified = ("Other") then false
  else false

/-- The center-selection logic of one iteration of extractCordoniData (source
lines 2975-2992): centerEllipse is the externally supplied or archive-derived
center on iteration 1, and it is replaced by the median proper motion of the
iteration's working data whenever (iterator != 1 and not recycleCenterEllipse)
or the force-recompute switch is set. -/
def extractCordoniData_iteration_center (iterator : ℕ) (re_compute_ellipse_center : Bool)
    (recycleCenterEllipse : Bool) (centerEllipse : ellipseVPDCenter)
    (data_to_work : List GaiaRecord) : ellipseVPDCenter :=
  if (iterator ≠ 1 ∧ ¬recycleCenterEllipse) ∨ re_compute_ellipse_center = true then
    get_median_pmra_pmdec data_to_work
  else centerEllipse

/-- Source class euclidianPoint (lines 2090-2093). -/
structure euclidianPoint where
  x : ℚ
  y : ℚ

/-- Source class singlePoint (lines 2096-2104): one interpolation anchor;
slope m and intercept c of the segment to the next point default to 0. -/
structure singlePoint where
  ID : ℕ
  median_value : ℚ
  std_value : ℚ
  mag_median : ℚ
  mag_std : ℚ
  m : ℚ := 0
  c : ℚ := 0

/-- Source class pointsToInterpolate (lines 2107-2109) wraps a plain list of
points; the model uses the list directly. -/
abbrev pointsToInterpolate := List singlePoint

/-- Source eq_straight_line (lines 2465-2472).  np.linalg.lstsq on two points
returns the interpolating line when the two x coordinates differ, and the
minimum-norm least-squares solution when they coincide; both cases are
reproduced exactly. -/
def eq_straight_line (P1 P2 : euclidianPoint) : ℚ × ℚ :=
  if P1.x = P2.x then
    let ybar := (P1.y + P2.y) / 2
    (P1.x * ybar / (P1.x ^ 2 + 1), ybar / (P1.x ^ 2 + 1))
  else
    let m := (P2.y - P1.y) / (P2.x - P1.x)
    (m, P1.y - m * P1.x)

/-- The segment-fitting loop of create_points_to_interpolate (source lines
2527-2536): each point except the last receives the slope and intercept of
the line through (its magnitude, median + sigma std) and the next point's
counterpart. -/
def compute_interpolation_segments (sigma : ℚ) : List singlePoint → List singlePoint
  | [] => []
  | [p] => [p]
  | p :: q :: rest =>
    let p1 : euclidianPoint := { x := p.mag_median, y := p.median_value + sigma * p.std_value }
    let p2 : euclidianPoint := { x := q.mag_median, y := q.median_value + sigma * q.std_value }
    let mc := eq_straight_line p1 p2
    { p with m := mc.1, c := mc.2 } :: compute_interpolation_segments sigma (q :: rest)

/-- The filter-name dispatch of create_points_to_interpolate (source lines
2489-2499): selected-magnitude median and standard deviation of a bin. -/
def bin_mag_stats (filter_name : String) : Option (Bin → ℚ × ℚ) :=
  if filter_name = ("G_RP") then some (fun b => (b.median_G_RP, b.std_dev_G_RP))
  else if filter_name = ("G_BP") then some (fun b => (b.median_G_BP, b.std_dev_G_BP))
  else if filter_name = ("G") then some (fun b => (b.median_G, b.std_dev_G))
  else none

/-- The variable dispatch of create_points_to_interpolate (source lines
2501-2512): median and standard deviation of the interpolated quantity;
none models the sys.exit on a variable outside paramsToInterpolate. -/
def bin_var_stats (varToInterpolate : String) : Option (Bin → ℚ × ℚ) :=
  if varToInterpolate = ("as_gof_al") ∨ varToInterpolate = ("astrometric_gof_al") then
    some (fun b => (b.median_as_gof_al, b.std_dev_as_gof_al))
  else if varToInterpolate = ("mu_R") then some (fun b => (b.median_mu_R, b.std_dev_mu_R))
  else if varToInterpolate = ("parallax") then some (fun b => (b.median_parallax, b.std_dev_parallax))
  else none

/-- The final recompute block of create_points_to_interpolate (source lines
2568-2579): fit the segment between the second-to-last and last points (it
could not be computed before the last point existed), store it on the
second-to-last point, and copy its intercept onto the last point; none models
the IndexError on lists with fewer than two points (unreachable from the
caller). -/
def recompute_last_segment (sigma : ℚ) (points : List singlePoint) :
    Option (List singlePoint) :=
  match points.reverse with
  | pLast :: pSemiLast :: restRev =>
    let p1 : euclidianPoint := { x := pSemiLast.mag_median
                                 y := pSemiLast.median_value + sigma * pSemiLast.std_value }
    let p2 : euclidianPoint := { x := pLast.mag_median
                                 y := pLast.median_value + sigma * pLast.std_value }
    let mc := eq_straight_line p1 p2
    some (({ pLast with c := mc.2 } :: { pSemiLast with m := mc.1, c := mc.2 } :: restRev).reverse)
  | _ => none

/-- Source create_points_to_interpolate (lines 2475-2580): one anchor per bin,
segments between consecutive anchors, a synthetic first point at the minimum
selected magnitude of the first bin with flat slope 0, a synthetic last point
at the maximum selected magnitude of the last bin, then recomputation of the
segment between the second-to-last and last points, whose intercept is copied
onto the last point.  none models the fatal paths (invalid names, no bins,
empty magnitude lists). -/
def create_points_to_interpolate (args : CordoniArgs) (totalBins : TotalBins)
    (varToInterpolate : String) (sigma : ℚ) : Option pointsToInterpolate := do
  let filter_name ← get_mag_filter_name args.set_mag_filter
  let magStats ← bin_mag_stats filter_name
  let varStats ← bin_var_stats varToInterpolate
  let basePoints := totalBins.bins.enum.map (fun p =>
    ({ ID := p.1 + 1
       median_value := (varStats p.2).1
       std_value := (varStats p.2).2
       mag_median := (magStats p.2).1
       mag_std := (magStats p.2).2 } : singlePoint))
  let points := compute_interpolation_segments sigma basePoints
  let firstPoint ← points.head?
  let firstBin ← totalBins.bins.head?
  let lastBin ← totalBins.bins.getLast?
  let magValues ← bin_mag_values filter_name
  let min_value_mag ← np_amin (magValues firstBin)
  let max_value_mag ← np_amax (magValues lastBin)
  let points2 := ({ ID := 0, median_value := firstPoint.median_value
                    std_value := firstPoint.std_value
                    mag_median := min_value_mag, mag_std := 0, m := 0
                    c := firstPoint.median_value + args.sigma * firstPoint.std_value } : singlePoint)
    :: points
  let lastPoint ← points2.getLast?
  let points3 := points2 ++
    [({ ID := lastPoint.ID + 1, median_value := lastPoint.median_value
        std_value := lastPoint.std_value
        mag_median := max_value_mag, mag_std := 0, m := 0
        c := lastPoint.median_value + args.sigma * lastPoint.std_value } : singlePoint)]
  recompute_last_segment sigma points3

/-- The per-row interval scan of interpolate_data_var (source lines
2603-2639): find the first half-open interval between consecutive curve
points containing the row's magnitude; keep the row iff its value is below
the fitted line there (one curve), or strictly between the lower and upper
evaluations (two curves, the lower curve's first interval using
median - sigma std directly); a magnitude in no interval keeps the row. -/
def interp_classify (sigma mag_iteration parameterToCompare : ℚ) (isFirstIndex : Bool) :
    List singlePoint → Option (List singlePoint) → Bool
  | p :: q :: rest, interPoints2 =>
    if p.mag_median ≤ mag_iteration ∧ mag_iteration < q.mag_median then
      let evaluate_value := p.m * mag_iteration + p.c
      match interPoints2 with
      | some (p2 :: _) =>
        let evaluate_value2 :=
          if isFirstIndex then p2.median_value - sigma * p2.std_value
          else p2.m * mag_iteration + p2.c
        decide (evaluate_value2 < parameterToCompare ∧ parameterToCompare < evaluate_value)
      | some [] => true
      | none => decide (parameterToCompare < evaluate_value)
    else
      match rest with
      | [] => true
      | r :: rs => interp_classify sigma mag_iteration parameterToCompare false (q :: r :: rs)
          (interPoints2.map (fun l => l.tail))
  | _, _ => true

/-- The magnitude-column dispatch of interpolate_data_var (source lines
2590-2598). -/
def useful_mag_values (filter_name : String) (usefulData : parameterList) : Option (List ℚ) :=
  if filter_name = ("G_RP") then some usefulData.G_RP
  else if filter_name = ("G_BP") then some usefulData.G_BP
  else if filter_name = ("G") then some usefulData.G
  else none

/-- Source interpolate_data_var (lines 2583-2647): build a boolean keep-mask,
one entry per row, from the row's magnitude and compared parameter; none
models the fatal paths (invalid names, mask/data length mismatch, which for
fewer than two curve points and nonempty data is how the source dies). -/
def interpolate_data_var (args : CordoniArgs) (usefulData : parameterList)
    (data_to_interpolate : List GaiaRecord) (interPoints : pointsToInterpolate)
    (variableName : String) (sigma : ℚ)
    (interPoints2 : Option pointsToInterpolate := none) : Option (List Bool) := do
  let parameter_to_get_list ← which_parameter usefulData variableName
  let filter_name ← get_mag_filter_name args.set_mag_filter
  let useful_mag ← useful_mag_values filter_name usefulData
  let mask_array := if 2 ≤ interPoints.length then
      (useful_mag.zip parameter_to_get_list).map (fun mv =>
        interp_classify sigma mv.1 mv.2 true interPoints interPoints2)
    else []
  if mask_array.length = data_to_interpolate.length then pure mask_array else none

/-- Boolean-mask row selection, the astropy Table indexing
dataToFilter[interpolated_stars] at source lines 2655 and 2663. -/
def apply_mask (data : List GaiaRecord) (mask : List Bool) : List GaiaRecord :=
  (data.zip mask).filterMap (fun rb => if rb.2 then some rb.1 else none)

/-- Source do_interpolation (lines 2650-2664): build the boundary curve(s)
for the requested variable (two curves, +sigma and -sigma, for parallax),
mask, and select the surviving rows.  The returned curves are consumed only
by plotting, so the model returns the filtered rows. -/
def do_interpolation (args : CordoniArgs) (totalBins : TotalBins) (dataToFilter : List GaiaRecord)
    (varToInterpolate : String) (sigma : ℚ) (ellipse_center : ellipseVPDCenter) :
    Option (List GaiaRecord) := do
  let usefulParameters := get_important_parameters dataToFilter ellipse_center
  if varToInterpolate ≠ ("parallax") then
    let points_to_interpolate ← create_points_to_interpolate args totalBins varToInterpolate sigma
    let interpolated_stars ← interpolate_data_var args usefulParameters dataToFilter
      points_to_interpolate varToInterpolate args.sigma
    pure (apply_mask dataToFilter interpolated_stars)
  else
    let points_to_interpolate_right ← create_points_to_interpolate args totalBins varToInterpolate sigma
    let points_to_interpolate_left ← create_points_to_interpolate args totalBins varToInterpolate (-1 * sigma)
    let interpolated_stars ← interpolate_data_var args usefulParameters dataToFilter
      points_to_interpolate_right varToInterpolate sigma (some points_to_interpolate_left)
    pure (apply_mask dataToFilter interpolated_stars)

/-- One toggleable filter block of Cordoni_algorithm (source lines 2887-2891,
2905-2909 and 2923-2926): skipped when its no-flag is set, otherwise one
do_interpolation round; the plotting branches have no effect on the returned
rows and are omitted.  do_and_print_interpolation (lines 2667-2695) passes
args.sigma as the sigma of every stage. -/
def cordoni_stage (args : CordoniArgs) (totalBins : TotalBins)
    (ellipse_center : ellipseVPDCenter) (varToInterpolate : String) (no_flag : Bool)
    (data_filtered : List GaiaRecord) : Option (List GaiaRecord) :=
  if no_flag then some data_filtered
  else do_interpolation args totalBins data_filtered varToInterpolate args.sigma ellipse_center

/-- Source Cordoni_algorithm (lines 2883-2940): apply the three toggleable
filter stages in sequence (astrometric_gof_al, then mu_R, then parallax),
each narrowing the dataset before the next, all against the same TotalBins
and center. -/
def Cordoni_algorithm (args : CordoniArgs) (totalBins : TotalBins)
    (original_data : List GaiaRecord) (ellipse_center : ellipseVPDCenter) :
    Option (List GaiaRecord) := do
  let data_filtered := original_data
  let data_filtered ← cordoni_stage args totalBins ellipse_center
    ("astrometric_gof_al") args.no_as_gof_al data_filtered
  let data_filtered ← cordoni_stage args totalBins ellipse_center
    ("mu_R") args.no_mu_R data_filtered
  let data_filtered ← cordoni_stage args totalBins ellipse_center
    ("parallax") args.no_parallax data_filtered
  pure data_filtered

/-- A Bin with no content, used only as the default of List.getD in
statements about bin lists. -/
def emptyBin : Bin := mkBin 0 {} 0 0

/-- One concrete catalog row for the C1 counterexample. -/
def c1_record : GaiaRecord :=
  { pmra := 1, pmdec := 2, parallax := 0, phot_g_mean_mag := 0,
    phot_bp_mean_mag := 0, phot_rp_mean_mag := 0, astrometric_gof_al := 0 }

/-- Concrete configuration for the C3 counterexample: custom magnitude
limits 20 and 30, G_RP as selected magnitude, 2 divisions. -/
def argsC3 : CordoniArgs :=
  { set_mag_filter := "g_rp", set_limits := true, mag_lower_limit := 20,
    mag_upper_limit := 30, sigma := 1, n_divisions := 2, n_iterations := 1,
    no_as_gof_al := false, no_mu_R := true, no_parallax := true,
    re_compute_ellipse_center := false }

/-- Concrete record with selected magnitude 21. -/
def recC3a : GaiaRecord :=
  { pmra := 0, pmdec := 0, parallax := 0, phot_g_mean_mag := 0,
    phot_bp_mean_mag := 0, phot_rp_mean_mag := 21, astrometric_gof_al := 0 }

/-- Concrete record with selected magnitude exactly 25, the upper sentinel
endpoint. -/
def recC3b : GaiaRecord :=
  { pmra := 0, pmdec := 0, parallax := 0, phot_g_mean_mag := 0,
    phot_bp_mean_mag := 0, phot_rp_mean_mag := 25, astrometric_gof_al := 0 }

/-- Concrete center for the C3 scenario. -/
def centerC3 : ellipseVPDCenter := { pmra := 0, pmdec := 0 }

/-- The bins create_bins produces on the C3 scenario: bin 1 covers
[21, 25.5) and holds both records, bin 2 covers [25.5, 30) and is empty. -/
def tbC3 : TotalBins :=
  ⟨[mkBin 1
      { G_BP := [0, 0]
        G_RP := [21, 25]
        G := [0, 0]
        as_gof_al := [0, 0]
        parallax := [0, 0]
        mu_R := [0, 0] } 21 (51/2),
    mkBin 2 {} (51/2) 30]⟩

/-- Configuration for the boundary-curve scenarios: default limits, G_RP
magnitude, sigma 1, only the astrometric_gof_al filter enabled. -/
def argsC5 : CordoniArgs :=
  { set_mag_filter := "g_rp", set_limits := false, mag_lower_limit := 10.5,
    mag_upper_limit := 19.5, sigma := 1, n_divisions := 2, n_iterations := 1,
    no_as_gof_al := false, no_mu_R := true, no_parallax := true,
    re_compute_ellipse_center := false }

/-- First bin of the boundary-curve scenario: G_RP magnitudes 10, 11, 12 and
astrometric_gof_al values 1, 2, 3. -/
def binC5a : Bin :=
  mkBin 1
    { G_BP := [0, 0, 0]
      G_RP := [10, 11, 12]
      G := [0, 0, 0]
      as_gof_al := [1, 2, 3]
      parallax := [0, 0, 0]
      mu_R := [0, 0, 0] } 10 13

/-- Second bin of the boundary-curve scenario: G_RP magnitudes 13, 14, 15 and
astrometric_gof_al values 4, 5, 6. -/
def binC5b : Bin :=
  mkBin 2
    { G_BP := [0, 0, 0]
      G_RP := [13, 14, 15]
      G := [0, 0, 0]
      as_gof_al := [4, 5, 6]
      parallax := [0, 0, 0]
      mu_R := [0, 0, 0] } 13 16

/-- The two-bin BinSet of the boundary-curve scenario. -/
def tbC5 : TotalBins := ⟨[binC5a, binC5b]⟩

/-- Center used in the boundary-curve scenarios. -/
def centerC5 : ellipseVPDCenter := { pmra := 0, pmdec := 0 }

/-- The boundary curve create_points_to_interpolate builds on tbC5 for
astrometric_gof_al with sigma 1: synthetic flat first point at magnitude 10
with baseline 3, two real anchors, synthetic last point at magnitude 15
inheriting intercept 6. -/
def curveC5 : pointsToInterpolate :=
  [{ ID := 0, median_value := 2, std_value := 1, mag_median := 10, mag_std := 0, m := 0, c := 3 },
   { ID := 1, median_value := 2, std_value := 1, mag_median := 11, mag_std := 1, m := 1, c := -8 },
   { ID := 2, median_value := 5, std_value := 1, mag_median := 14, mag_std := 1, m := 0, c := 6 },
   { ID := 3, median_value := 5, std_value := 1, mag_median := 15, mag_std := 0, m := 0, c := 6 }]

/-- Concrete record for the C5 counterexample: magnitude 9, strictly below
the curve's first point at magnitude 10, with a huge compared value 100. -/
def recC5 : GaiaRecord :=
  { pmra := 0, pmdec := 0, parallax := 0, phot_g_mean_mag := 0,
    phot_bp_mean_mag := 0, phot_rp_mean_mag := 9, astrometric_gof_al := 100 }

/-- Configuration with a NEGATIVE requested division count (argparse accepts
any int for --n-divisions). -/
def argsC6 : CordoniArgs :=
  { set_mag_filter := "g_rp", set_limits := false, mag_lower_limit := 10.5,
    mag_upper_limit := 19.5, sigma := 1, n_divisions := -1, n_iterations := 1,
    no_as_gof_al := false, no_mu_R := true, no_parallax := true,
    re_compute_ellipse_center := false }

/-- Configuration for the successful C6 witness run: custom limits 10 and 20,
2 divisions. -/
def argsC6w : CordoniArgs :=
  { set_mag_filter := "g_rp", set_limits := true, mag_lower_limit := 10,
    mag_upper_limit := 20, sigma := 1, n_divisions := 2, n_iterations := 1,
    no_as_gof_al := false, no_mu_R := true, no_parallax := true,
    re_compute_ellipse_center := false }

/-- A record whose selected (G_RP) magnitude is the given value and whose
other columns are zero. -/
def mkRecRP (m : ℚ) : GaiaRecord :=
  { pmra := 0, pmdec := 0, parallax := 0, phot_g_mean_mag := 0,
    phot_bp_mean_mag := 0, phot_rp_mean_mag := m, astrometric_gof_al := 0 }

/-- The four records of the C6 witness run. -/
def recsC6 : List GaiaRecord := [mkRecRP 10, mkRecRP 11, mkRecRP 15, mkRecRP 16]

/-- The bins produced on the C6 witness run: [10, 15) and [15, 20), each with
two records. -/
def tbC6 : TotalBins :=
  ⟨[mkBin 1
      { G_BP := [0, 0]
        G_RP := [10, 11]
        G := [0, 0]
        as_gof_al := [0, 0]
        parallax := [0, 0]
        mu_R := [0, 0] } 10 15,
    mkBin 2
      { G_BP := [0, 0]
        G_RP := [15, 16]
        G := [0, 0]
        as_gof_al := [0, 0]
        parallax := [0, 0]
        mu_R := [0, 0] } 15 20]⟩

/-- Record kept by the boundary filter in the concrete Cordoni run:
magnitude 12, value 2, below the boundary 12 - 8 = 4. -/
def recW1 : GaiaRecord :=
  { pmra := 0, pmdec := 0, parallax := 0, phot_g_mean_mag := 0,
    phot_bp_mean_mag := 0, phot_rp_mean_mag := 12, astrometric_gof_al := 2 }

/-- Record discarded by the boundary filter in the concrete Cordoni run:
magnitude 12, value 10, above the boundary 4. -/
def recW2 : GaiaRecord :=
  { pmra := 0, pmdec := 0, parallax := 0, phot_g_mean_mag := 0,
    phot_bp_mean_mag := 0, phot_rp_mean_mag := 12, astrometric_gof_al := 10 }

/-- Claim C4, counterexample: with custom limits lower 10 and upper 20 and a
raw maximum of 12, the code returns maximum 20 (the raw maximum 12 exceeds
the LOWER limit 10, so it is replaced by the upper limit), while the claim
predicts the raw maximum clamped down to the upper limit, min 12 20 = 12. -/
theorem check_min_and_max_values_claim_false :
    check_min_and_max_values 11 12 true 10 20 = (11, 20) ∧
      ¬((20 : ℚ) = min 12 20) := by
  constructor
  · norm_num [check_min_and_max_values]
  · norm_num

/-- Claim C4 (amended): when custom magnitude limits are requested, the
returned minimum is the raw minimum clamped up to the custom lower limit, and
the returned maximum is the custom UPPER limit whenever the raw maximum
exceeds the custom LOWER limit (and the raw maximum unchanged otherwise):
the asymmetric lower-bound-triggered replacement applies to the custom-limits
policy exactly as to the default policy. -/
theorem check_min_and_max_values_custom (minValue maxValue lower_mag upper_mag dl du : ℚ) :
    check_min_and_max_values minValue maxValue true lower_mag upper_mag dl du =
      (max minValue lower_mag, if lower_mag < maxValue then upper_mag else maxValue) := by
  have h1 : (if minValue < lower_mag then lower_mag else minValue) = max minValue lower_mag := by
    rcases lt_or_le minValue lower_mag with h | h
    · simp [h, max_eq_right h.le]
    · simp [not_lt.mpr h, max_eq_left h]
  simp only [check_min_and_max_values, if_true, gt_iff_lt, h1]

/-- Claim C1 (amended): with the force-recompute switch enabled, the center
is recomputed as the median proper motion of the working data on EVERY
iteration, including the first: the center used by iteration 1 is
get_median_pmra_pmdec of the original data, regardless of classification and
of the externally supplied center. -/
theorem extractCordoniData_center_iter1_forced (recycleCenterEllipse : Bool)
    (centerEllipse : ellipseVPDCenter) (data_to_work : List GaiaRecord) :
    extractCordoniData_iteration_center 1 true recycleCenterEllipse centerEllipse data_to_work =
      get_median_pmra_pmdec data_to_work := by
  simp [extractCordoniData_iteration_center]

/-- Claim C1, counterexample: a recyclable (archive-identified) object with
archive center (10, 20), force-recompute enabled, one record with proper
motion (1, 2): the center used by iteration 1 is the recomputed median
(1, 2), not the archive-derived (10, 20), contradicting the claim that
iteration 1 always uses the externally supplied center. -/
theorem extractCordoniData_center_iter1_claim_false :
    (extractCordoniData_iteration_center 1 true true
        { pmra := 10, pmdec := 20 } [c1_record]).pmra = 1 ∧ ¬((1 : ℚ) = 10) := by
  constructor
  · norm_num [extractCordoniData_iteration_center, get_median_pmra_pmdec, np_median,
      np_round3, round_half_even, c1_record, List.insertionSort, List.orderedInsert]
  · norm_num

/-- The record-collection loop produces, in each of the six parallel lists,
exactly the rows passing the bin-interval-and-sentinel test, in order. -/
lemma collect_bin_params_eq (key : GaiaRecord → ℚ) (astrodata : List GaiaRecord)
    (mn mx cra cdec : ℚ) :
    collect_bin_params key astrodata mn mx cra cdec =
      { G_BP := (astrodata.filter (fun r =>
          decide ((mn ≤ key r ∧ key r < mx) ∧ (-25 < key r ∧ key r ≤ 25)))).map
            (fun r => r.phot_bp_mean_mag)
        G_RP := (astrodata.filter (fun r =>
          decide ((mn ≤ key r ∧ key r < mx) ∧ (-25 < key r ∧ key r ≤ 25)))).map
            (fun r => r.phot_rp_mean_mag)
        G := (astrodata.filter (fun r =>
          decide ((mn ≤ key r ∧ key r < mx) ∧ (-25 < key r ∧ key r ≤ 25)))).map
            (fun r => r.phot_g_mean_mag)
        as_gof_al := (astrodata.filter (fun r =>
          decide ((mn ≤ key r ∧ key r < mx) ∧ (-25 < key r ∧ key r ≤ 25)))).map
            (fun r => r.astrometric_gof_al)
        parallax := (astrodata.filter (fun r =>
          decide ((mn ≤ key r ∧ key r < mx) ∧ (-25 < key r ∧ key r ≤ 25)))).map
            (fun r => r.parallax)
        mu_R := (astrodata.filter (fun r =>
          decide ((mn ≤ key r ∧ key r < mx) ∧ (-25 < key r ∧ key r ≤ 25)))).map
            (fun r => estimate_mu_sub_R r.pmra r.pmdec cra cdec) } := by
  induction astrodata with
  | nil => rfl
  | cons r rest ih =>
    by_cases hc : (mn ≤ key r ∧ key r < mx) ∧ (-25 < key r ∧ key r ≤ 25)
    · simp [collect_bin_params, hc, ih, List.filter_cons]
    · simp [collect_bin_params, hc, ih, List.filter_cons]

/-- Claim C3 (amended): for every successful run of create_bins, bin j covers
the half-open magnitude interval from min + j binWidth to min + (j+1) binWidth,
and a record is collected into bin j exactly when its selected magnitude lies
in that interval AND in the sentinel range -25 < m AND m LESS-OR-EQUAL 25:
the lower sentinel endpoint -25 is excluded but the upper endpoint 25 is
included (the source condition is -25 < m <= 25, not m < 25). -/
theorem create_bins_bin_membership (args : CordoniArgs) (astrodata : List GaiaRecord)
    (nDivision : ℤ) (center : ellipseVPDCenter) (fn : String) (key : GaiaRecord → ℚ)
    (tb : TotalBins) (maxV minV binV : ℚ)
    (hfn : get_mag_filter_name args.set_mag_filter = some fn)
    (hkey : select_gaia_filter_key_param fn = some key)
    (h : create_bins args astrodata nDivision center = some (tb, maxV, minV, binV))
    (j : ℕ) (hj : j < tb.bins.length) :
    (tb.bins.getD j emptyBin).minVal_mag = minV + binV * j ∧
    (tb.bins.getD j emptyBin).maxVal_mag = minV + binV * (j + 1) ∧
    (tb.bins.getD j emptyBin).params.G_RP =
      (astrodata.filter (fun r =>
        decide ((minV + binV * j ≤ key r ∧ key r < minV + binV * (j + 1)) ∧
          (-25 < key r ∧ key r ≤ 25)))).map (fun r => r.phot_rp_mean_mag) ∧
    (tb.bins.getD j emptyBin).params.as_gof_al =
      (astrodata.filter (fun r =>
        decide ((minV + binV * j ≤ key r ∧ key r < minV + binV * (j + 1)) ∧
          (-25 < key r ∧ key r ≤ 25)))).map (fun r => r.astrometric_gof_al) := by
  simp only [create_bins, Option.pure_def, Option.bind_eq_bind, Option.some_bind, hfn, hkey] at h
  cases hgb : get_bin_size args (astrodata.map key) nDivision with
  | none => rw [hgb] at h; simp at h
  | some mmb =>
    obtain ⟨mxv, mnv, bwv⟩ := mmb
    rw [hgb] at h
    simp only [Option.some_bind, Option.pure_def, Option.some.injEq, Prod.mk.injEq] at h
    obtain ⟨htb, hmx, hmn, hbw⟩ := h
    subst htb hmx hmn hbw
    have hj' : j < nDivision.toNat := by
      simpa using hj
    simp only [List.getD_eq_getElem?_getD, List.getElem?_map, List.getElem?_range, hj',
      if_pos, Option.map_some, Option.getD_some, mkBin, collect_bin_params_eq]
    refine ⟨rfl, rfl, rfl, rfl⟩

/-- Evaluation of create_bins on the C3 scenario. -/
lemma create_bins_C3_eval :
    create_bins argsC3 [recC3a, recC3b] 2 centerC3 = some (tbC3, 30, 21, 9/2) := by
  have hfn : get_mag_filter_name ("g_rp") = some ("G_RP") := by rfl
  have hkey : select_gaia_filter_key_param ("G_RP") = some (fun r => r.phot_rp_mean_mag) := by rfl
  have he : estimate_mu_sub_R 0 0 0 0 = 0 := by
    norm_num [estimate_mu_sub_R, rat_sqrt, nat_sqrt, List.range_succ]
  have hr : List.range (Int.toNat 2) = [0, 1] := by rfl
  norm_num [create_bins, argsC3, recC3a, recC3b, centerC3, tbC3, hfn, hkey, he, hr,
    get_bin_size, np_amax, np_amin, check_min_and_max_values,
    List.map_cons, List.map_nil, collect_bin_params]

/-- Claim C3, counterexample: the record with selected magnitude exactly 25
IS collected into bin 1 (the source sentinel test is -25 < m <= 25), although
25 lies outside the open range (-25, 25) required by the claim, which would
have excluded it. -/
theorem create_bins_sentinel_claim_false :
    create_bins argsC3 [recC3a, recC3b] 2 centerC3 = some (tbC3, 30, 21, 9/2) ∧
    (25 : ℚ) ∈ (tbC3.bins.getD 0 emptyBin).params.G_RP ∧
    ¬((-25 : ℚ) < 25 ∧ (25 : ℚ) < 25) := by
  refine ⟨create_bins_C3_eval, ?_, by norm_num⟩
  norm_num [tbC3, mkBin, emptyBin]

/-- Claim C3, witness for the amended theorem at the concrete C3 scenario:
bin 0 of the returned bins holds exactly the two records, both endpoints of
the evaluation spelled out. -/
theorem create_bins_bin_membership_witness :
    (tbC3.bins.getD 0 emptyBin).params.G_RP = [21, 25] ∧
    (tbC3.bins.getD 0 emptyBin).minVal_mag = 21 ∧
    (tbC3.bins.getD 0 emptyBin).maxVal_mag = 51/2 := by
  have h := create_bins_bin_membership argsC3 [recC3a, recC3b] 2 centerC3 ("G_RP")
    (fun r => r.phot_rp_mean_mag) tbC3 30 21 (9/2) (by rfl) (by rfl)
    create_bins_C3_eval 0 (by norm_num [tbC3])
  obtain ⟨h1, h2, h3, _⟩ := h
  refine ⟨?_, ?_, ?_⟩
  · rw [h3]
    norm_num [recC3a, recC3b, List.filter_cons]
  · rw [h1]; norm_num
  · rw [h2]; norm_num

/-- The segment-fitting loop does not change the number of points. -/
lemma compute_interpolation_segments_length (sigma : ℚ) (l : List singlePoint) :
    (compute_interpolation_segments sigma l).length = l.length := by
  induction l with
  | nil => rfl
  | cons p rest ih =>
    cases rest with
    | nil => rfl
    | cons q rs => simpa [compute_interpolation_segments] using ih

/-- Action of the final recompute block on a list presented as front ++
[second-to-last, last]: the fitted segment lands on the second-to-last point
and its intercept is copied onto the last point, everything else unchanged. -/
lemma recompute_last_segment_append (sigma : ℚ) (front : List singlePoint) (a b : singlePoint) :
    recompute_last_segment sigma (front ++ [a, b]) =
      some (front ++
        [{ a with
            m := (eq_straight_line
              { x := a.mag_median, y := a.median_value + sigma * a.std_value }
              { x := b.mag_median, y := b.median_value + sigma * b.std_value }).1,
            c := (eq_straight_line
              { x := a.mag_median, y := a.median_value + sigma * a.std_value }
              { x := b.mag_median, y := b.median_value + sigma * b.std_value }).2 },
         { b with
            c := (eq_straight_line
              { x := a.mag_median, y := a.median_value + sigma * a.std_value }
              { x := b.mag_median, y := b.median_value + sigma * b.std_value }).2 }]) := by
  have hrev : (front ++ [a, b]).reverse = b :: a :: front.reverse := by
    simp
  simp [recompute_last_segment, hrev]

/-- Claim C8 (confirmed): every successful boundary-curve construction
returns exactly (number of bins) + 2 points; the returned list ends in two
points a (second-to-last) and b (last) such that a carries the freshly
recomputed segment between a and b, b's intercept equals a's intercept, and
b's slope is the 0 it was constructed with - the last point never receives a
freshly computed slope. -/
theorem create_points_to_interpolate_shape (args : CordoniArgs) (totalBins : TotalBins)
    (varToInterpolate : String) (sigma : ℚ) (pts : pointsToInterpolate)
    (h : create_points_to_interpolate args totalBins varToInterpolate sigma = some pts) :
    pts.length = totalBins.bins.length + 2 ∧
    ∃ front a b, pts = front ++ [a, b] ∧ b.c = a.c ∧ b.m = 0 ∧
      (a.m, a.c) = eq_straight_line
        { x := a.mag_median, y := a.median_value + sigma * a.std_value }
        { x := b.mag_median, y := b.median_value + sigma * b.std_value } := by
  simp only [create_points_to_interpolate, Option.pure_def, Option.bind_eq_bind,
    Option.bind_eq_some] at h
  obtain ⟨fn, hfn, ms, hms, vs, hvs, firstPoint, hfp, firstBin, hfb, lastBin, hlb,
    magValues, hmv, mn, hmn, mx, hmx, lastPoint, hlp, h⟩ := h
  obtain ⟨ys, hys⟩ := List.getLast?_eq_some_iff.mp hlp
  rw [hys] at h
  rw [List.append_assoc] at h
  simp only [List.cons_append, List.nil_append] at h
  rw [recompute_last_segment_append] at h
  injection h with h
  subst h
  constructor
  · have hlen := congrArg List.length hys
    simp only [List.length_cons, List.length_append, List.length_nil,
      compute_interpolation_segments_length, List.length_map, List.enum_length] at hlen ⊢
    omega
  · refine ⟨ys, _, _, rfl, rfl, rfl, rfl⟩

/-- Evaluation of the boundary-curve construction on the tbC5 scenario. -/
lemma create_points_C5_eval :
    create_points_to_interpolate argsC5 tbC5 ("astrometric_gof_al") 1 = some curveC5 := by
  have hfn : get_mag_filter_name ("g_rp") = some ("G_RP") := by rfl
  have hms : bin_mag_stats ("G_RP") = some (fun b => (b.median_G_RP, b.std_dev_G_RP)) := by rfl
  have hvs : bin_var_stats ("astrometric_gof_al") =
      some (fun b => (b.median_as_gof_al, b.std_dev_as_gof_al)) := by rfl
  have hbv : bin_mag_values ("G_RP") = some (fun b => b.params.G_RP) := by rfl
  have hm1 : np_median [(10 : ℚ), 11, 12] = 11 := by
    norm_num [np_median, List.insertionSort, List.orderedInsert]
  have hm2 : np_median [(1 : ℚ), 2, 3] = 2 := by
    norm_num [np_median, List.insertionSort, List.orderedInsert]
  have hm3 : np_median [(13 : ℚ), 14, 15] = 14 := by
    norm_num [np_median, List.insertionSort, List.orderedInsert]
  have hm4 : np_median [(4 : ℚ), 5, 6] = 5 := by
    norm_num [np_median, List.insertionSort, List.orderedInsert]
  have hs1 : np_std_ddof1 [(10 : ℚ), 11, 12] = 1 := by
    norm_num [np_std_ddof1, rat_sqrt, nat_sqrt, List.range_succ]
  have hs2 : np_std_ddof1 [(1 : ℚ), 2, 3] = 1 := by
    norm_num [np_std_ddof1, rat_sqrt, nat_sqrt, List.range_succ]
  have hs3 : np_std_ddof1 [(13 : ℚ), 14, 15] = 1 := by
    norm_num [np_std_ddof1, rat_sqrt, nat_sqrt, List.range_succ]
  have hs4 : np_std_ddof1 [(4 : ℚ), 5, 6] = 1 := by
    norm_num [np_std_ddof1, rat_sqrt, nat_sqrt, List.range_succ]
  norm_num [create_points_to_interpolate, tbC5, binC5a, binC5b, argsC5, curveC5,
    hfn, hms, hvs, hbv, hm1, hm2, hm3, hm4, hs1, hs2, hs3, hs4, mkBin,
    List.enum, List.enumFrom, compute_interpolation_segments, eq_straight_line,
    np_amin, np_amax, recompute_last_segment, singlePoint.mk.injEq]

/-- Claim C8, witness: the concrete two-bin scenario, where the curve has
2 + 2 = 4 points and the final two points share the recomputed intercept. -/
theorem create_points_to_interpolate_shape_witness :
    curveC5.length = tbC5.bins.length + 2 ∧
    ∃ front a b, curveC5 = front ++ [a, b] ∧ b.c = a.c ∧ b.m = 0 ∧
      (a.m, a.c) = eq_straight_line
        { x := a.mag_median, y := a.median_value + 1 * a.std_value }
        { x := b.mag_median, y := b.median_value + 1 * b.std_value } :=
  create_points_to_interpolate_shape argsC5 tbC5 ("astrometric_gof_al") 1 curveC5
    create_points_C5_eval

/-- Claim C5 (amended): a data point whose magnitude lies strictly below the
magnitude of the curve's first point matches NO interval of the scan (the
curve magnitudes being strictly increasing), so it is kept unconditionally by
the out-of-range leniency policy - its value is never compared against the
synthetic first point's flat baseline. -/
theorem interp_classify_below_first_kept (sigma mag value : ℚ) (isFirst : Bool)
    (pts : List singlePoint) (pts2 : Option (List singlePoint)) (p : singlePoint)
    (hhead : pts.head? = some p)
    (hmono : pts.Chain' (fun a b => a.mag_median < b.mag_median))
    (hmag : mag < p.mag_median) :
    interp_classify sigma mag value isFirst pts pts2 = true := by
  induction pts generalizing isFirst pts2 p with
  | nil => simp [interp_classify]
  | cons p0 tl ih =>
    obtain rfl : p0 = p := by simpa using hhead
    cases tl with
    | nil => simp [interp_classify]
    | cons q rest =>
      have hlt1 : p0.mag_median < q.mag_median := (List.chain'_cons.mp hmono).1
      have hchain2 := (List.chain'_cons.mp hmono).2
      cases rest with
      | nil => simp [interp_classify, hmag]
      | cons r rs =>
        have hrec := ih false (pts2.map (fun l => l.tail)) q rfl hchain2
          (lt_trans hmag hlt1)
        simp [interp_classify, hmag, hrec]

/-- Claim C5, witness for the amended theorem: on the concrete curve with
first point at magnitude 10, a point at magnitude 9 is kept no matter how
large its value. -/
theorem interp_classify_below_first_kept_witness :
    interp_classify 1 9 100 true curveC5 none = true :=
  interp_classify_below_first_kept 1 9 100 true curveC5 none
    { ID := 0, median_value := 2, std_value := 1, mag_median := 10, mag_std := 0, m := 0, c := 3 }
    (by rfl) (by norm_num [curveC5, List.chain'_cons]) (by norm_num)

/-- Claim C5, counterexample: the record at magnitude 9 with value 100 is
KEPT by the astrometric_gof_al filter (out-of-range leniency), although its
value 100 is not below the synthetic first point's flat baseline
2 + 1 * 1 = 3, so the claim (keep iff value below that baseline) is false. -/
theorem classify_below_min_claim_false :
    create_points_to_interpolate argsC5 tbC5 ("astrometric_gof_al") 1 = some curveC5 ∧
    do_interpolation argsC5 tbC5 [recC5] ("astrometric_gof_al") 1 centerC5 = some [recC5] ∧
    ¬((100 : ℚ) < 2 + 1 * 1) := by
  refine ⟨create_points_C5_eval, ?_, by norm_num⟩
  have hw : ∀ pl : parameterList, which_parameter pl ("astrometric_gof_al") = some pl.as_gof_al :=
    fun _ => rfl
  have hfn : get_mag_filter_name ("g_rp") = some ("G_RP") := by rfl
  have hu : ∀ pl : parameterList, useful_mag_values ("G_RP") pl = some pl.G_RP :=
    fun _ => rfl
  have hsm : argsC5.set_mag_filter = "g_rp" := rfl
  norm_num +decide [do_interpolation, create_points_C5_eval, interpolate_data_var, hw, hfn, hu,
    get_important_parameters, recC5, interp_classify, curveC5, apply_mask, hsm,
    List.filterMap_cons, List.filterMap_nil]

/-- create_bins dies (failed assert in get_bin_size) when asked for exactly
one division. -/
lemma create_bins_div_one (args : CordoniArgs) (astrodata : List GaiaRecord)
    (center : ellipseVPDCenter) :
    create_bins args astrodata 1 center = none := by
  cases hfn : get_mag_filter_name args.set_mag_filter with
  | none => simp [create_bins, hfn]
  | some fn =>
    cases hkey : select_gaia_filter_key_param fn with
    | none => simp [create_bins, hfn, hkey]
    | some key => simp [create_bins, hfn, hkey, get_bin_size]

/-- The shrink-and-retry loop dies when it reaches one division. -/
lemma get_and_check_bins_loop_one (args : CordoniArgs) (astrodata : List GaiaRecord)
    (center : ellipseVPDCenter) (fn : String) (fuel : ℕ) :
    get_and_check_bins_loop args astrodata center fn fuel 1 = none := by
  cases fuel <;> simp [get_and_check_bins_loop, create_bins_div_one]

/-- Soundness of the shrink-and-retry loop: starting from at least 2
divisions, a successful exit returns a BinSet every bin of which has at least
2 elements in its astrometric_gof_al list and in its selected-magnitude list,
and a division count between 2 and the starting count. -/
lemma get_and_check_bins_loop_sound (args : CordoniArgs) (astrodata : List GaiaRecord)
    (center : ellipseVPDCenter) (fn : String) (magValues : Bin → List ℚ)
    (hmv : bin_mag_values fn = some magValues) :
    ∀ (fuel : ℕ) (d : ℤ), 2 ≤ d → ∀ (tb : TotalBins) (dd : ℤ),
      get_and_check_bins_loop args astrodata center fn fuel d = some (tb, dd) →
      (∀ b ∈ tb.bins, 2 ≤ b.params.as_gof_al.length ∧ 2 ≤ (magValues b).length) ∧
      2 ≤ dd ∧ dd ≤ d := by
  intro fuel
  induction fuel with
  | zero =>
    intro d hd tb dd h
    rw [get_and_check_bins_loop] at h
    cases hcb : create_bins args astrodata d center with
    | none => rw [hcb] at h; exact absurd h (by simp)
    | some out =>
      obtain ⟨tb', mxv, mnv, bwv⟩ := out
      rw [hcb] at h
      simp only [check_if_total_bins_has_at_least_2_elems_or_more, hmv, Option.pure_def,
        Option.bind_eq_bind, Option.some_bind] at h
      cases hall : tb'.bins.all (fun bin_it =>
          decide (2 ≤ bin_it.params.as_gof_al.length) &&
          decide (2 ≤ (magValues bin_it).length)) with
      | false => rw [hall] at h; exact absurd h (by simp)
      | true =>
        rw [hall] at h
        simp only [Option.some.injEq, Prod.mk.injEq] at h
        obtain ⟨h1, h2⟩ := h
        subst h1 h2
        refine ⟨?_, hd, le_refl _⟩
        intro b hb
        have := List.all_eq_true.mp hall b hb
        simpa using this
  | succ fuel ih =>
    intro d hd tb dd h
    rw [get_and_check_bins_loop] at h
    cases hcb : create_bins args astrodata d center with
    | none => rw [hcb] at h; exact absurd h (by simp)
    | some out =>
      obtain ⟨tb', mxv, mnv, bwv⟩ := out
      rw [hcb] at h
      simp only [check_if_total_bins_has_at_least_2_elems_or_more, hmv, Option.pure_def,
        Option.bind_eq_bind, Option.some_bind] at h
      cases hall : tb'.bins.all (fun bin_it =>
          decide (2 ≤ bin_it.params.as_gof_al.length) &&
          decide (2 ≤ (magValues bin_it).length)) with
      | true =>
        rw [hall] at h
        simp only [Option.some.injEq, Prod.mk.injEq] at h
        obtain ⟨h1, h2⟩ := h
        subst h1 h2
        refine ⟨?_, hd, le_refl _⟩
        intro b hb
        have := List.all_eq_true.mp hall b hb
        simpa using this
      | false =>
        rw [hall] at h
        rcases lt_or_le (d - 1) 2 with hlt | hge
        · have hdeq : d = 2 := by omega
          subst hdeq
          rw [show (2 : ℤ) - 1 = 1 by norm_num] at h
          rw [get_and_check_bins_loop_one] at h
          exact absurd h (by simp)
        · have hres := ih (d - 1) hge tb dd h
          exact ⟨hres.1, hres.2.1, by omega⟩

/-- Claim C6 (amended): provided the requested division count is at least 2,
every successful return of get_and_check_created_bins satisfies the bin
validation (at least 2 elements in each bin's astrometric_gof_al list and
selected-magnitude list) and reports an effective division count between 2
and the requested count; reaching a division count below 2 without a valid
BinSet is the fatal (none) path. -/
theorem get_and_check_created_bins_valid (args : CordoniArgs) (astrodata : List GaiaRecord)
    (center : ellipseVPDCenter) (fn : String) (magValues : Bin → List ℚ)
    (hfn : get_mag_filter_name args.set_mag_filter = some fn)
    (hmv : bin_mag_values fn = some magValues)
    (hreq : 2 ≤ args.n_divisions)
    (tb : TotalBins) (dd : ℤ)
    (h : get_and_check_created_bins args astrodata center = some (tb, dd)) :
    (∀ b ∈ tb.bins, 2 ≤ b.params.as_gof_al.length ∧ 2 ≤ (magValues b).length) ∧
    2 ≤ dd ∧ dd ≤ args.n_divisions := by
  simp only [get_and_check_created_bins, Option.pure_def, Option.bind_eq_bind, hfn,
    Option.some_bind] at h
  exact get_and_check_bins_loop_sound args astrodata center fn magValues hmv
    ((args.n_divisions - 2).toNat) args.n_divisions hreq tb dd h

/-- Claim C6, counterexample: with requested divisions -1, create_bins builds
an EMPTY bin list (range(0, -1) is empty), validation passes vacuously, and
get_and_check_created_bins returns successfully reporting -1 divisions, which
is not at least 2 as the claim requires. -/
theorem get_and_check_divisions_claim_false :
    get_and_check_created_bins argsC6 [recC3a] centerC3 = some (⟨[]⟩, -1) ∧
    ¬(2 ≤ (-1 : ℤ)) := by
  constructor
  · have hfn : get_mag_filter_name ("g_rp") = some ("G_RP") := by rfl
    have hkey : select_gaia_filter_key_param ("G_RP") = some (fun r => r.phot_rp_mean_mag) := by rfl
    have hmv : bin_mag_values ("G_RP") = some (fun b => b.params.G_RP) := by rfl
    have ht1 : ((-1 : ℤ) - 2).toNat = 0 := by rfl
    have ht2 : (-1 : ℤ).toNat = 0 := by rfl
    norm_num [get_and_check_created_bins, get_and_check_bins_loop, argsC6, hfn, hkey, hmv,
      ht1, ht2, create_bins, get_bin_size, np_amax, np_amin, check_min_and_max_values,
      recC3a, centerC3, List.range_zero,
      check_if_total_bins_has_at_least_2_elems_or_more]
  · norm_num

/-- Evaluation of the bin construction with validation on the C6 witness run:
it succeeds on the first attempt with both bins holding 2 records. -/
lemma get_and_check_C6_eval :
    get_and_check_created_bins argsC6w recsC6 centerC3 = some (tbC6, 2) := by
  have hfn : get_mag_filter_name ("g_rp") = some ("G_RP") := by rfl
  have hkey : select_gaia_filter_key_param ("G_RP") = some (fun r => r.phot_rp_mean_mag) := by rfl
  have hmv : bin_mag_values ("G_RP") = some (fun b => b.params.G_RP) := by rfl
  have he : estimate_mu_sub_R 0 0 0 0 = 0 := by
    norm_num [estimate_mu_sub_R, rat_sqrt, nat_sqrt, List.range_succ]
  have ht1 : ((2 : ℤ) - 2).toNat = 0 := by rfl
  have hr : List.range (Int.toNat 2) = [0, 1] := by rfl
  norm_num [get_and_check_created_bins, get_and_check_bins_loop, argsC6w, hfn, hkey, hmv,
    he, ht1, hr, create_bins, get_bin_size, np_amax, np_amin, check_min_and_max_values,
    recsC6, mkRecRP, centerC3, tbC6, collect_bin_params, List.map_cons, List.map_nil,
    check_if_total_bins_has_at_least_2_elems_or_more, mkBin]

/-- Claim C6, witness: the amended theorem applied to the concrete witness
run, where validation holds in both returned bins and the reported division
count 2 is between 2 and the requested count. -/
theorem get_and_check_created_bins_valid_witness :
    (∀ b ∈ tbC6.bins, 2 ≤ b.params.as_gof_al.length ∧ 2 ≤ b.params.G_RP.length) ∧
    2 ≤ (2 : ℤ) ∧ (2 : ℤ) ≤ argsC6w.n_divisions :=
  get_and_check_created_bins_valid argsC6w recsC6 centerC3 ("G_RP")
    (fun b => b.params.G_RP) (by rfl) (by rfl) (by norm_num [argsC6w]) tbC6 2
    get_and_check_C6_eval

/-- which_parameter applied to the per-record parameter lists of a dataset is
always the column map of a fixed accessor, uniformly in the dataset. -/
lemma which_parameter_gip_shape (var : String) (center : ellipseVPDCenter)
    (data : List GaiaRecord) (plist : List ℚ)
    (h : which_parameter (get_important_parameters data center) var = some plist) :
    ∃ f : GaiaRecord → ℚ, plist = data.map f ∧
      ∀ data2 : List GaiaRecord,
        which_parameter (get_important_parameters data2 center) var = some (data2.map f) := by
  unfold which_parameter at h
  split_ifs at h with h1 h2 h3 h4 h5 h6
  · refine ⟨fun d => d.astrometric_gof_al, ?_, fun data2 => by
      simp [which_parameter, h1, get_important_parameters]⟩
    all_goals
      have h' := Option.some.inj h
      subst h'
      simp [get_important_parameters]
  · refine ⟨fun d => d.phot_rp_mean_mag, ?_, fun data2 => by
      simp [which_parameter, h1, h2, get_important_parameters]⟩
    all_goals
      have h' := Option.some.inj h
      subst h'
      simp [get_important_parameters]
  · refine ⟨fun d => d.phot_bp_mean_mag, ?_, fun data2 => by
      simp [which_parameter, h1, h2, h3, get_important_parameters]⟩
    all_goals
      have h' := Option.some.inj h
      subst h'
      simp [get_important_parameters]
  · refine ⟨fun d => d.phot_g_mean_mag, ?_, fun data2 => by
      simp [which_parameter, h1, h2, h3, h4, get_important_parameters]⟩
    all_goals
      have h' := Option.some.inj h
      subst h'
      simp [get_important_parameters]
  · refine ⟨fun d => d.parallax, ?_, fun data2 => by
      simp [which_parameter, h1, h2, h3, h4, h5, get_important_parameters]⟩
    all_goals
      have h' := Option.some.inj h
      subst h'
      simp [get_important_parameters]
  · refine ⟨fun d => estimate_mu_sub_R d.pmra d.pmdec center.pmra center.pmdec, ?_, fun data2 => by
      simp [which_parameter, h1, h2, h3, h4, h5, h6, get_important_parameters]⟩
    all_goals
      have h' := Option.some.inj h
      subst h'
      simp [get_important_parameters]

/-- The magnitude-column dispatch applied to the per-record parameter lists of
a dataset is always the column map of a fixed accessor, uniformly in the
dataset. -/
lemma useful_mag_values_gip_shape (fn : String) (center : ellipseVPDCenter)
    (data : List GaiaRecord) (mlist : List ℚ)
    (h : useful_mag_values fn (get_important_parameters data center) = some mlist) :
    ∃ g : GaiaRecord → ℚ, mlist = data.map g ∧
      ∀ data2 : List GaiaRecord,
        useful_mag_values fn (get_important_parameters data2 center) = some (data2.map g) := by
  unfold useful_mag_values at h
  split_ifs at h with h1 h2 h3
  · refine ⟨fun d => d.phot_rp_mean_mag, ?_, fun data2 => by
      simp [useful_mag_values, h1, get_important_parameters]⟩
    all_goals
      have h' := Option.some.inj h
      subst h'
      simp [get_important_parameters]
  · refine ⟨fun d => d.phot_bp_mean_mag, ?_, fun data2 => by
      simp [useful_mag_values, h1, h2, get_important_parameters]⟩
    all_goals
      have h' := Option.some.inj h
      subst h'
      simp [get_important_parameters]
  · refine ⟨fun d => d.phot_g_mean_mag, ?_, fun data2 => by
      simp [useful_mag_values, h1, h2, h3, get_important_parameters]⟩
    all_goals
      have h' := Option.some.inj h
      subst h'
      simp [get_important_parameters]

/-- Masked row selection by a mask computed rowwise is exactly List.filter. -/
lemma apply_mask_map (data : List GaiaRecord) (keep : GaiaRecord → Bool) :
    apply_mask data (data.map keep) = data.filter keep := by
  induction data with
  | nil => rfl
  | cons r rest ih =>
    cases hk : keep r <;> simp [apply_mask, List.filter_cons, hk] <;>
      simpa [apply_mask] using ih

/-- The keep-mask of interpolate_data_var is computed row by row: it is the
map of a fixed per-record predicate over the dataset, uniformly over subsets
of the dataset (same curves, same sigma, same center). -/
lemma interpolate_data_var_filter (args : CordoniArgs) (center : ellipseVPDCenter)
    (data : List GaiaRecord) (interPoints : pointsToInterpolate) (var : String)
    (sigma : ℚ) (ip2 : Option pointsToInterpolate) (mask : List Bool)
    (h : interpolate_data_var args (get_important_parameters data center) data
      interPoints var sigma ip2 = some mask) :
    ∃ keep : GaiaRecord → Bool, mask = data.map keep ∧
      ∀ data2 : List GaiaRecord, data2.Sublist data →
        interpolate_data_var args (get_important_parameters data2 center) data2
          interPoints var sigma ip2 = some (data2.map keep) := by
  simp only [interpolate_data_var, Option.pure_def, Option.bind_eq_bind,
    Option.bind_eq_some] at h
  obtain ⟨plist, hwp, fn, hfn, mlist, hum, hif⟩ := h
  obtain ⟨f, hfeq, hfall⟩ := which_parameter_gip_shape var center data plist hwp
  obtain ⟨g, hgeq, hgall⟩ := useful_mag_values_gip_shape fn center data mlist hum
  subst hfeq hgeq
  by_cases hlen : 2 ≤ interPoints.length
  · rw [if_pos hlen, List.zip_map', List.map_map] at hif
    rw [if_pos (by simp)] at hif
    obtain rfl := Option.some.inj hif
    refine ⟨_, rfl, ?_⟩
    intro data2 _
    simp only [interpolate_data_var, Option.pure_def, Option.bind_eq_bind]
    rw [hfall data2]
    simp only [Option.some_bind]
    rw [hfn]
    simp only [Option.some_bind]
    rw [hgall data2]
    simp only [Option.some_bind]
    rw [if_pos hlen, List.zip_map', List.map_map]
    rw [if_pos (by simp)]
  · rw [if_neg hlen] at hif
    cases data with
    | nil =>
      simp at hif
      subst hif
      refine ⟨fun _ => true, by simp, ?_⟩
      intro data2 hsub
      have hd2 : data2 = [] := List.sublist_nil.mp hsub
      subst hd2
      simp only [interpolate_data_var, Option.pure_def, Option.bind_eq_bind]
      rw [hfall []]
      simp only [Option.some_bind]
      rw [hfn]
      simp only [Option.some_bind]
      rw [hgall []]
      simp only [Option.some_bind]
      rw [if_neg hlen]
      simp
    | cons r rest =>
      rw [if_neg (by simp)] at hif
      exact absurd hif (by simp)

/-- One do_interpolation round filters its dataset by a fixed per-record
predicate (independent of the dataset), uniformly over subsets. -/
lemma do_interpolation_filter (args : CordoniArgs) (tb : TotalBins) (data : List GaiaRecord)
    (var : String) (sigma : ℚ) (center : ellipseVPDCenter) (out : List GaiaRecord)
    (h : do_interpolation args tb data var sigma center = some out) :
    ∃ keep : GaiaRecord → Bool, out = data.filter keep ∧
      ∀ data2, data2.Sublist data →
        do_interpolation args tb data2 var sigma center = some (data2.filter keep) := by
  by_cases hv : var ≠ ("parallax")
  · simp only [do_interpolation, if_pos hv, Option.pure_def, Option.bind_eq_bind,
      Option.bind_eq_some] at h
    obtain ⟨pts, hpts, mask, hmask, hout⟩ := h
    obtain ⟨keep, hmk, hall⟩ := interpolate_data_var_filter args center data pts var
      args.sigma none mask hmask
    subst hmk
    obtain rfl := Option.some.inj hout
    refine ⟨keep, apply_mask_map data keep, ?_⟩
    intro data2 hsub
    simp only [do_interpolation, Option.pure_def, Option.bind_eq_bind]
    rw [if_pos hv, hpts]
    simp only [Option.some_bind]
    rw [hall data2 hsub]
    simp only [Option.some_bind]
    rw [apply_mask_map]
  · simp only [do_interpolation, if_neg hv, Option.pure_def, Option.bind_eq_bind,
      Option.bind_eq_some] at h
    obtain ⟨ptsR, hptsR, ptsL, hptsL, mask, hmask, hout⟩ := h
    obtain ⟨keep, hmk, hall⟩ := interpolate_data_var_filter args center data ptsR var
      sigma (some ptsL) mask hmask
    subst hmk
    obtain rfl := Option.some.inj hout
    refine ⟨keep, apply_mask_map data keep, ?_⟩
    intro data2 hsub
    simp only [do_interpolation, Option.pure_def, Option.bind_eq_bind]
    rw [if_neg hv, hptsR]
    simp only [Option.some_bind]
    rw [hptsL]
    simp only [Option.some_bind]
    rw [hall data2 hsub]
    simp only [Option.some_bind]
    rw [apply_mask_map]

/-- One (possibly disabled) filter stage of Cordoni_algorithm filters its
input by a fixed per-record predicate, uniformly over subsets. -/
lemma cordoni_stage_filter (args : CordoniArgs) (tb : TotalBins) (center : ellipseVPDCenter)
    (var : String) (toggle : Bool) (data mid : List GaiaRecord)
    (h : cordoni_stage args tb center var toggle data = some mid) :
    ∃ q : GaiaRecord → Bool, mid = data.filter q ∧
      ∀ data2, data2.Sublist data →
        cordoni_stage args tb center var toggle data2 = some (data2.filter q) := by
  cases toggle with
  | true =>
    simp only [cordoni_stage, if_true] at h
    obtain rfl := Option.some.inj h
    exact ⟨fun _ => true, by simp, fun data2 _ => by simp [cordoni_stage]⟩
  | false =>
    simp only [cordoni_stage, Bool.false_eq_true, if_false] at h ⊢
    exact do_interpolation_filter args tb data var args.sigma center mid h

/-- Cordoni_algorithm is the filter of a fixed per-record predicate: the
composition of the three stage predicates, uniformly over subsets of the
input. -/
lemma Cordoni_algorithm_filter (args : CordoniArgs) (totalBins : TotalBins)
    (data : List GaiaRecord) (center : ellipseVPDCenter) (out : List GaiaRecord)
    (h : Cordoni_algorithm args totalBins data center = some out) :
    ∃ p : GaiaRecord → Bool, out = data.filter p ∧
      ∀ data2, data2.Sublist data →
        Cordoni_algorithm args totalBins data2 center = some (data2.filter p) := by
  simp only [Cordoni_algorithm, Option.pure_def, Option.bind_eq_bind,
    Option.bind_eq_some] at h
  obtain ⟨d1, h1, d2, h2, d3, h3, hout⟩ := h
  obtain rfl := Option.some.inj hout
  obtain ⟨q1, e1, a1⟩ := cordoni_stage_filter args totalBins center
    ("astrometric_gof_al") args.no_as_gof_al data d1 h1
  subst e1
  obtain ⟨q2, e2, a2⟩ := cordoni_stage_filter args totalBins center
    ("mu_R") args.no_mu_R (data.filter q1) d2 h2
  subst e2
  obtain ⟨q3, e3, a3⟩ := cordoni_stage_filter args totalBins center
    ("parallax") args.no_parallax ((data.filter q1).filter q2) d3 h3
  subst e3
  refine ⟨fun r => q3 r && q2 r && q1 r, ?_, ?_⟩
  · rw [List.filter_filter, List.filter_filter]
  · intro data2 hsub
    simp only [Cordoni_algorithm, Option.pure_def, Option.bind_eq_bind]
    rw [a1 data2 hsub]
    simp only [Option.some_bind]
    rw [a2 (data2.filter q1) (hsub.filter q1)]
    simp only [Option.some_bind]
    rw [a3 ((data2.filter q1).filter q2) ((hsub.filter q1).filter q2)]
    simp only [Option.some_bind]
    rw [List.filter_filter, List.filter_filter]

/-- Claim C9 (confirmed): for a fixed BinSet, sigma multiplier and VPD
center, applying the three-filter sequence a second time to the output of a
first application removes no further points - the second application returns
its input unchanged. -/
theorem Cordoni_algorithm_idempotent (args : CordoniArgs) (totalBins : TotalBins)
    (data : List GaiaRecord) (center : ellipseVPDCenter) (out : List GaiaRecord)
    (h : Cordoni_algorithm args totalBins data center = some out) :
    Cordoni_algorithm args totalBins out center = some out := by
  obtain ⟨p, hout, hall⟩ := Cordoni_algorithm_filter args totalBins data center out h
  have hsub : out.Sublist data := by
    rw [hout]
    exact List.filter_sublist data
  have h2 := hall out hsub
  rw [hout] at h2
  rw [List.filter_filter] at h2
  have hpp : (fun a => p a && p a) = p := funext fun a => Bool.and_self (p a)
  rw [hpp] at h2
  rw [← hout] at h2
  exact h2

/-- Claim C10 (confirmed): one round of the three-filter step returns an
order-preserving subset (a sublist) of its input rows, never adding or
reordering rows, so its length is at most the input's length.  (In this pure
model each filter builds a fresh list from a boolean mask; the source's deep
copies make the same guarantee for the caller's table.) -/
theorem Cordoni_algorithm_sublist (args : CordoniArgs) (totalBins : TotalBins)
    (data : List GaiaRecord) (center : ellipseVPDCenter) (out : List GaiaRecord)
    (h : Cordoni_algorithm args totalBins data center = some out) :
    out.Sublist data ∧ out.length ≤ data.length := by
  obtain ⟨p, hout, _⟩ := Cordoni_algorithm_filter args totalBins data center out h
  subst hout
  exact ⟨List.filter_sublist data, (List.filter_sublist data).length_le⟩

/-- Evaluation of one full Cordoni_algorithm round (gof filter enabled, mu_R
and parallax disabled) on two concrete records: the record above the boundary
is discarded. -/
lemma Cordoni_C9_eval :
    Cordoni_algorithm argsC5 tbC5 [recW1, recW2] centerC5 = some [recW1] := by
  have hsm : argsC5.set_mag_filter = "g_rp" := rfl
  have hsig : argsC5.sigma = 1 := rfl
  have hno1 : argsC5.no_as_gof_al = false := rfl
  have hno2 : argsC5.no_mu_R = true := rfl
  have hno3 : argsC5.no_parallax = true := rfl
  have hfn : get_mag_filter_name ("g_rp") = some ("G_RP") := by rfl
  have hw : ∀ pl : parameterList, which_parameter pl ("astrometric_gof_al") = some pl.as_gof_al :=
    fun _ => rfl
  have hu : ∀ pl : parameterList, useful_mag_values ("G_RP") pl = some pl.G_RP :=
    fun _ => rfl
  norm_num +decide [Cordoni_algorithm, cordoni_stage, do_interpolation, hsm, hsig,
    hno1, hno2, hno3, hfn, hw, hu, create_points_C5_eval, interpolate_data_var,
    get_important_parameters, recW1, recW2, interp_classify, curveC5, apply_mask,
    List.filterMap_cons, List.filterMap_nil]

/-- Claim C9, witness: the concrete run discards one of two records, and the
theorem applied to it shows the second application returns the filtered set
unchanged. -/
theorem Cordoni_algorithm_idempotent_witness :
    Cordoni_algorithm argsC5 tbC5 [recW1, recW2] centerC5 = some [recW1] ∧
    Cordoni_algorithm argsC5 tbC5 [recW1] centerC5 = some [recW1] :=
  ⟨Cordoni_C9_eval,
   Cordoni_algorithm_idempotent argsC5 tbC5 [recW1, recW2] centerC5 [recW1] Cordoni_C9_eval⟩

/-- Claim C10, witness: the concrete run's output is an order-preserving
subset of its two-record input of no greater length. -/
theorem Cordoni_algorithm_sublist_witness :
    ([recW1] : List GaiaRecord).Sublist [recW1, recW2] ∧
    ([recW1] : List GaiaRecord).length ≤ ([recW1, recW2] : List GaiaRecord).length :=
  Cordoni_algorithm_sublist argsC5 tbC5 [recW1, recW2] centerC5 [recW1] Cordoni_C9_eval

/-- Folding over a flatMap is the nested fold. -/
lemma foldl_flatMap {α β σ : Type} (g : α → List β) (f : σ → β → σ) (l : List α) (s : σ) :
    (l.flatMap g).foldl f s = l.foldl (fun s x => (g x).foldl f s) s := by
  induction l generalizing s with
  | nil => rfl
  | cons a t ih => simp [List.flatMap_cons, List.foldl_append, ih]

/-- Folding the combinations of one width value is the nested
height-inclination fold. -/
lemma foldl_pair {σ : Type} (f : σ → ℚ × ℚ × ℚ → σ) (wi : ℚ) (h_array a_array : List ℚ)
    (s : σ) :
    ((h_array.flatMap fun h_it => a_array.map fun angle_it => (wi, h_it, angle_it)).foldl f s) =
      h_array.foldl (fun s h_it =>
        a_array.foldl (fun s angle_it => f s (wi, h_it, angle_it)) s) s := by
  rw [foldl_flatMap]
  simp only [List.foldl_map]

/-- Folding over the width-major combination list is the triple nested fold. -/
lemma foldl_triple {σ : Type} (f : σ → ℚ × ℚ × ℚ → σ) (w_array h_array a_array : List ℚ)
    (s : σ) :
    (ellipse_combos w_array h_array a_array).foldl f s =
      w_array.foldl (fun s w_it => h_array.foldl (fun s h_it =>
        a_array.foldl (fun s angle_it => f s (w_it, h_it, angle_it)) s) s) s := by
  induction w_array generalizing s with
  | nil => rfl
  | cons wi ws ih =>
    rw [ellipse_combos, List.flatMap_cons, List.foldl_append, List.foldl_cons]
    rw [foldl_pair]
    exact ih _

/-- The triple nested loop of loop_Montecarlo is the fold of montecarlo_step
over the width-major combination list. -/
lemma loop_Montecarlo_eq_foldl (cosD sinD : ℚ → ℚ) (x y : List ℚ)
    (w_array h_array a_array : List ℚ) (pmra_center pmdec_center : ℚ) :
    loop_Montecarlo cosD sinD x y w_array h_array a_array pmra_center pmdec_center =
      ((ellipse_combos w_array h_array a_array).foldl
        (montecarlo_step cosD sinD x y pmra_center pmdec_center)
        ((0 : ℕ), { center_x := 0, center_y := 0, width := 0, height := 0, inclination := 0 })).2 := by
  unfold loop_Montecarlo
  rw [foldl_triple]

/-- If no non-degenerate combination beats the running maximum, the fold
leaves the state unchanged. -/
lemma montecarlo_foldl_no_update (cosD sinD : ℚ → ℚ) (x y : List ℚ)
    (pmra_center pmdec_center : ℚ) :
    ∀ (combos : List (ℚ × ℚ × ℚ)) (m : ℕ) (e : EllipseClass),
      (∀ c ∈ combos, c.1 ≠ c.2.1 →
        stars_inside_count cosD sinD x y pmra_center pmdec_center c ≤ m) →
      combos.foldl (montecarlo_step cosD sinD x y pmra_center pmdec_center) (m, e) = (m, e) := by
  intro combos
  induction combos with
  | nil => intro m e _; rfl
  | cons c t ih =>
    intro m e hall
    by_cases hd : c.1 = c.2.1
    · rw [List.foldl_cons]
      rw [show montecarlo_step cosD sinD x y pmra_center pmdec_center (m, e) c = (m, e) by
        simp [montecarlo_step, hd]]
      exact ih m e (fun c' hc' => hall c' (List.mem_cons_of_mem c hc'))
    · have hle := hall c (List.mem_cons_self c t) hd
      rw [List.foldl_cons]
      rw [show montecarlo_step cosD sinD x y pmra_center pmdec_center (m, e) c = (m, e) by
        simp [montecarlo_step, hd, check_if_max_value, not_lt.mpr hle]]
      exact ih m e (fun c' hc' => hall c' (List.mem_cons_of_mem c hc'))

/-- The running best count never drops below its initial value. -/
lemma montecarlo_best_count_init_le (cosD sinD : ℚ → ℚ) (x y : List ℚ)
    (pmra_center pmdec_center : ℚ) :
    ∀ (combos : List (ℚ × ℚ × ℚ)) (m : ℕ),
      m ≤ montecarlo_best_count cosD sinD x y pmra_center pmdec_center combos m := by
  intro combos
  induction combos with
  | nil => intro m; exact le_refl m
  | cons c t ih =>
    intro m
    rw [montecarlo_best_count, List.foldl_cons]
    by_cases hd : c.1 = c.2.1
    · rw [if_pos hd]
      exact ih m
    · rw [if_neg hd]
      exact le_trans (le_max_left m _) (ih _)

/-- If the best count equals the initial value, every non-degenerate
combination's count is at most that value. -/
lemma montecarlo_best_count_eq_all_le (cosD sinD : ℚ → ℚ) (x y : List ℚ)
    (pmra_center pmdec_center : ℚ) :
    ∀ (combos : List (ℚ × ℚ × ℚ)) (m : ℕ),
      montecarlo_best_count cosD sinD x y pmra_center pmdec_center combos m = m →
      ∀ c ∈ combos, c.1 ≠ c.2.1 →
        stars_inside_count cosD sinD x y pmra_center pmdec_center c ≤ m := by
  intro combos
  induction combos with
  | nil => intro m _ c hc; exact absurd hc (List.not_mem_nil c)
  | cons c t ih =>
    intro m hbest c' hc' hd'
    rw [montecarlo_best_count, List.foldl_cons] at hbest
    by_cases hd : c.1 = c.2.1
    · rw [if_pos hd] at hbest
      rcases List.mem_cons.mp hc' with rfl | hmem
      · exact absurd hd hd'
      · exact ih m hbest c' hmem hd'
    · rw [if_neg hd] at hbest
      have hinit := montecarlo_best_count_init_le cosD sinD x y pmra_center pmdec_center t
        (max m (stars_inside_count cosD sinD x y pmra_center pmdec_center c))
      have hmaxle : max m (stars_inside_count cosD sinD x y pmra_center pmdec_center c) ≤ m := by
        calc max m (stars_inside_count cosD sinD x y pmra_center pmdec_center c)
            ≤ montecarlo_best_count cosD sinD x y pmra_center pmdec_center t
              (max m (stars_inside_count cosD sinD x y pmra_center pmdec_center c)) := hinit
          _ = m := hbest
      rcases List.mem_cons.mp hc' with rfl | hmem
      · exact le_trans (le_max_right _ _) hmaxle
      · have hmeq : max m (stars_inside_count cosD sinD x y pmra_center pmdec_center c) = m :=
          le_antisymm hmaxle (le_max_left _ _)
        rw [hmeq] at hbest
        exact ih m hbest c' hmem hd'

/-- First-argmax characterization of the loop_Montecarlo fold: if some
non-degenerate combination strictly beats the initial maximum, the fold ends
at the overall best count with the parameters of the FIRST combination, in
list order, attaining that best count. -/
lemma montecarlo_foldl_first_best (cosD sinD : ℚ → ℚ) (x y : List ℚ)
    (pmra_center pmdec_center : ℚ) :
    ∀ (combos : List (ℚ × ℚ × ℚ)) (m : ℕ) (e : EllipseClass) (c0 : ℚ × ℚ × ℚ),
      m < montecarlo_best_count cosD sinD x y pmra_center pmdec_center combos m →
      combos.find? (fun c => decide (c.1 ≠ c.2.1) &&
        decide (stars_inside_count cosD sinD x y pmra_center pmdec_center c =
          montecarlo_best_count cosD sinD x y pmra_center pmdec_center combos m)) = some c0 →
      combos.foldl (montecarlo_step cosD sinD x y pmra_center pmdec_center) (m, e) =
        (montecarlo_best_count cosD sinD x y pmra_center pmdec_center combos m,
         { center_x := pmra_center, center_y := pmdec_center,
           width := c0.1, height := c0.2.1, inclination := c0.2.2 }) := by
  intro combos
  induction combos with
  | nil =>
    intro m e c0 hlt _
    exact absurd hlt (by simp [montecarlo_best_count])
  | cons c t ih =>
    intro m e c0 hlt hfind
    by_cases hd : c.1 = c.2.1
    · have hbr : montecarlo_best_count cosD sinD x y pmra_center pmdec_center (c :: t) m =
          montecarlo_best_count cosD sinD x y pmra_center pmdec_center t m := by
        rw [montecarlo_best_count, List.foldl_cons, if_pos hd]
        rfl
      have hstep : montecarlo_step cosD sinD x y pmra_center pmdec_center (m, e) c = (m, e) := by
        simp [montecarlo_step, hd]
      rw [hbr] at hlt hfind ⊢
      have hpc : (decide (c.1 ≠ c.2.1) && decide
          (stars_inside_count cosD sinD x y pmra_center pmdec_center c =
            montecarlo_best_count cosD sinD x y pmra_center pmdec_center t m)) = false := by
        simp [hd]
      rw [List.find?_cons] at hfind
      simp only [hpc] at hfind
      rw [List.foldl_cons, hstep]
      exact ih m e c0 hlt hfind
    · have hbr : montecarlo_best_count cosD sinD x y pmra_center pmdec_center (c :: t) m =
          montecarlo_best_count cosD sinD x y pmra_center pmdec_center t
            (max m (stars_inside_count cosD sinD x y pmra_center pmdec_center c)) := by
        rw [montecarlo_best_count, List.foldl_cons, if_neg hd]
        rfl
      by_cases hgt : m < stars_inside_count cosD sinD x y pmra_center pmdec_center c
      · have hmax : max m (stars_inside_count cosD sinD x y pmra_center pmdec_center c) =
            stars_inside_count cosD sinD x y pmra_center pmdec_center c :=
          max_eq_right hgt.le
        have hstep : montecarlo_step cosD sinD x y pmra_center pmdec_center (m, e) c =
            (stars_inside_count cosD sinD x y pmra_center pmdec_center c,
             { center_x := pmra_center, center_y := pmdec_center,
               width := c.1, height := c.2.1, inclination := c.2.2 }) := by
          simp [montecarlo_step, hd, check_if_max_value, hgt]
        rw [List.foldl_cons, hstep]
        rw [hbr, hmax] at hfind ⊢
        rcases eq_or_lt_of_le (montecarlo_best_count_init_le cosD sinD x y
            pmra_center pmdec_center t
            (stars_inside_count cosD sinD x y pmra_center pmdec_center c)) with heq | hlt2
        · have hall := montecarlo_best_count_eq_all_le cosD sinD x y pmra_center pmdec_center t
            (stars_inside_count cosD sinD x y pmra_center pmdec_center c) heq.symm
          have hfold := montecarlo_foldl_no_update cosD sinD x y pmra_center pmdec_center t
            (stars_inside_count cosD sinD x y pmra_center pmdec_center c)
            ({ center_x := pmra_center, center_y := pmdec_center,
               width := c.1, height := c.2.1, inclination := c.2.2 }) hall
          rw [hfold]
          have hpc : (decide (c.1 ≠ c.2.1) && decide
              (stars_inside_count cosD sinD x y pmra_center pmdec_center c =
                montecarlo_best_count cosD sinD x y pmra_center pmdec_center t
                  (stars_inside_count cosD sinD x y pmra_center pmdec_center c))) = true := by
            simp [hd, ← heq]
          rw [List.find?_cons] at hfind
          simp only [hpc] at hfind
          obtain rfl := Option.some.inj hfind
          rw [← heq]
        · have hpc : (decide (c.1 ≠ c.2.1) && decide
              (stars_inside_count cosD sinD x y pmra_center pmdec_center c =
                montecarlo_best_count cosD sinD x y pmra_center pmdec_center t
                  (stars_inside_count cosD sinD x y pmra_center pmdec_center c))) = false := by
            simp [hlt2.ne]
          rw [List.find?_cons] at hfind
          simp only [hpc] at hfind
          exact ih (stars_inside_count cosD sinD x y pmra_center pmdec_center c)
            ({ center_x := pmra_center, center_y := pmdec_center,
               width := c.1, height := c.2.1, inclination := c.2.2 }) c0 hlt2 hfind
      · push_neg at hgt
        have hmax : max m (stars_inside_count cosD sinD x y pmra_center pmdec_center c) = m :=
          max_eq_left hgt
        have hstep : montecarlo_step cosD sinD x y pmra_center pmdec_center (m, e) c = (m, e) := by
          simp [montecarlo_step, hd, check_if_max_value, not_lt.mpr hgt]
        rw [List.foldl_cons, hstep]
        rw [hbr, hmax] at hlt hfind ⊢
        have hne : stars_inside_count cosD sinD x y pmra_center pmdec_center c ≠
            montecarlo_best_count cosD sinD x y pmra_center pmdec_center t m :=
          (lt_of_le_of_lt hgt hlt).ne
        have hpc : (decide (c.1 ≠ c.2.1) && decide
            (stars_inside_count cosD sinD x y pmra_center pmdec_center c =
              montecarlo_best_count cosD sinD x y pmra_center pmdec_center t m)) = false := by
          simp [hne]
        rw [List.find?_cons] at hfind
        simp only [hpc] at hfind
        exact ih m e c0 hlt hfind

/-- np.linspace contains both endpoints whenever at least 2 samples are
requested. -/
lemma np_linspace_endpoints (mn mx : ℚ) (n : ℕ) (h2 : 2 ≤ n) :
    mn ∈ np_linspace mn mx n ∧ mx ∈ np_linspace mn mx n := by
  have hne : ((n : ℚ) - 1) ≠ 0 := by
    have h2q : (2 : ℚ) ≤ (n : ℚ) := by exact_mod_cast h2
    intro hzero
    have : (n : ℚ) = 1 := by linarith
    linarith
  have h0n : 0 < n := by omega
  have hn1 : n - 1 < n := by omega
  constructor
  · unfold np_linspace
    exact List.mem_map.mpr ⟨0, List.mem_range.mpr h0n, by simp⟩
  · unfold np_linspace
    refine List.mem_map.mpr ⟨n - 1, List.mem_range.mpr hn1, ?_⟩
    have h1 : 1 ≤ n := by omega
    push_cast [h1]
    rw [mul_div_assoc, div_self hne, mul_one]
    ring

/-- Claim C2 (amended): the grid search returns, when some non-degenerate
combination encloses at least one point, the EllipseClass with the winning
width, height and inclination and with the GIVEN center; and when every
sampled width equals every sampled height (no combination ever evaluated) it
returns the all-zero EllipseClass, whose center fields are 0 and 0, NOT the
given center. -/
theorem loop_Montecarlo_result (cosD sinD : ℚ → ℚ) (x y : List ℚ)
    (w_array h_array a_array : List ℚ) (pmra_center pmdec_center : ℚ) :
    ((∀ wi ∈ w_array, ∀ hi ∈ h_array, wi = hi) →
      loop_Montecarlo cosD sinD x y w_array h_array a_array pmra_center pmdec_center =
        { center_x := 0, center_y := 0, width := 0, height := 0, inclination := 0 }) ∧
    (∀ c0 : ℚ × ℚ × ℚ,
      0 < montecarlo_best_count cosD sinD x y pmra_center pmdec_center
        (ellipse_combos w_array h_array a_array) 0 →
      montecarlo_first_best cosD sinD x y pmra_center pmdec_center
        (ellipse_combos w_array h_array a_array) = some c0 →
      loop_Montecarlo cosD sinD x y w_array h_array a_array pmra_center pmdec_center =
        { center_x := pmra_center, center_y := pmdec_center,
          width := c0.1, height := c0.2.1, inclination := c0.2.2 }) := by
  constructor
  · intro hdeg
    rw [loop_Montecarlo_eq_foldl]
    have hall : ∀ c ∈ ellipse_combos w_array h_array a_array, c.1 ≠ c.2.1 →
        stars_inside_count cosD sinD x y pmra_center pmdec_center c ≤ 0 := by
      intro c hc hnd
      exfalso
      apply hnd
      simp only [ellipse_combos, List.mem_flatMap, List.mem_map] at hc
      obtain ⟨wi, hwi, hi, hhi, ai, hai, rfl⟩ := hc
      exact hdeg wi hwi hi hhi
    rw [montecarlo_foldl_no_update cosD sinD x y pmra_center pmdec_center _ 0 _ hall]
  · intro c0 hpos hfind
    rw [montecarlo_first_best] at hfind
    rw [loop_Montecarlo_eq_foldl]
    rw [montecarlo_foldl_first_best cosD sinD x y pmra_center pmdec_center _ 0 _ c0 hpos hfind]

/-- Witness for loop_Montecarlo_result at concrete inputs: a degenerate grid
(widths [2] = heights [2]) returns the all-zero EllipseClass even though the
given center is (5, 7); a grid with widths [2, 4], heights [3], inclinations
[0] over the single data point (0, 0) returns the first best combination
(2, 3, 0) with the given center (0, 0). -/
theorem loop_Montecarlo_result_witness :
    loop_Montecarlo (fun _ => 0) (fun _ => 0) [] [] [2] [2] [0] 5 7 =
      { center_x := 0, center_y := 0, width := 0, height := 0, inclination := 0 } ∧
    loop_Montecarlo (fun _ => -1) (fun _ => 0) [0] [0] [2, 4] [3] [0] 0 0 =
      { center_x := 0, center_y := 0, width := 2, height := 3, inclination := 0 } := by
  constructor
  · exact (loop_Montecarlo_result (fun _ => 0) (fun _ => 0) [] [] [2] [2] [0] 5 7).1
      (by intro wi hwi hi hhi
          simp only [List.mem_singleton] at hwi hhi
          rw [hwi, hhi])
  · exact (loop_Montecarlo_result (fun _ => -1) (fun _ => 0) [0] [0] [2, 4] [3] [0] 0 0).2
      (2, 3, 0)
      (by norm_num [montecarlo_best_count, ellipse_combos, stars_inside_count,
        DefineEllipse, List.zip, List.countP, List.countP.go])
      (by norm_num [montecarlo_first_best, montecarlo_best_count, ellipse_combos,
        stars_inside_count, DefineEllipse, List.zip, List.countP, List.countP.go,
        List.find?])

/-- Counterexample to the literal claim C2: when every sampled width equals
every sampled height, loop_Montecarlo returns the loop's initial all-zero
EllipseClass, whose center fields are (0, 0) and NOT the given center
(5, 7): the center fields of the degenerate return are not populated. -/
theorem loop_Montecarlo_degenerate_center_claim_false :
    (loop_Montecarlo (fun _ => 0) (fun _ => 0) [] [] [2] [2] [0] 5 7).center_x ≠ 5 ∧
    (loop_Montecarlo (fun _ => 0) (fun _ => 0) [] [] [2] [2] [0] 5 7).center_y ≠ 7 := by
  have h : loop_Montecarlo (fun _ => 0) (fun _ => 0) [] [] [2] [2] [0] 5 7 =
      { center_x := 0, center_y := 0, width := 0, height := 0, inclination := 0 } := rfl
  rw [h]
  norm_num

/-- Claim C7 (amended): count_stars_inside_ellipse discretizes the three
iterator ranges with np.linspace grids that contain both endpoints whenever
the requested number of steps is at least 2, iterates them width-major
(width outer, height middle, inclination inner), skips every degenerate
width = height combination, and — provided the maximal inside-count over the
non-degenerate combinations is POSITIVE — returns the earliest combination
in that order attaining the maximum, with the given center.  (When the
maximal inside-count is 0, no update fires and the all-zero EllipseClass is
returned, not the earliest tying combination.) -/
theorem count_stars_inside_ellipse_first_best
    (cosD sinD : ℚ → ℚ) (pmra_center pmdec_center : ℚ) (data : List GaiaRecord)
    (wit hit ait : IteratorClass) (c0 : ℚ × ℚ × ℚ)
    (hpos : 0 < montecarlo_best_count cosD sinD (data.map (fun r => r.pmra))
      (data.map (fun r => r.pmdec)) pmra_center pmdec_center
      (ellipse_combos (np_linspace wit.minimum wit.maximum wit.n_step)
        (np_linspace hit.minimum hit.maximum hit.n_step)
        (np_linspace ait.minimum ait.maximum ait.n_step)) 0)
    (hfind : montecarlo_first_best cosD sinD (data.map (fun r => r.pmra))
      (data.map (fun r => r.pmdec)) pmra_center pmdec_center
      (ellipse_combos (np_linspace wit.minimum wit.maximum wit.n_step)
        (np_linspace hit.minimum hit.maximum hit.n_step)
        (np_linspace ait.minimum ait.maximum ait.n_step)) = some c0) :
    count_stars_inside_ellipse cosD sinD pmra_center pmdec_center data wit hit ait =
      { center_x := pmra_center, center_y := pmdec_center,
        width := c0.1, height := c0.2.1, inclination := c0.2.2 } ∧
    (2 ≤ wit.n_step → wit.minimum ∈ np_linspace wit.minimum wit.maximum wit.n_step ∧
      wit.maximum ∈ np_linspace wit.minimum wit.maximum wit.n_step) ∧
    (2 ≤ hit.n_step → hit.minimum ∈ np_linspace hit.minimum hit.maximum hit.n_step ∧
      hit.maximum ∈ np_linspace hit.minimum hit.maximum hit.n_step) ∧
    (2 ≤ ait.n_step → ait.minimum ∈ np_linspace ait.minimum ait.maximum ait.n_step ∧
      ait.maximum ∈ np_linspace ait.minimum ait.maximum ait.n_step) := by
  refine ⟨?_, fun h2 => np_linspace_endpoints wit.minimum wit.maximum wit.n_step h2,
    fun h2 => np_linspace_endpoints hit.minimum hit.maximum hit.n_step h2,
    fun h2 => np_linspace_endpoints ait.minimum ait.maximum ait.n_step h2⟩
  rw [montecarlo_first_best] at hfind
  show (count_stars_inside_ellipse cosD sinD pmra_center pmdec_center data wit hit ait) = _
  simp only [count_stars_inside_ellipse]
  rw [loop_Montecarlo_eq_foldl]
  rw [montecarlo_foldl_first_best cosD sinD (data.map (fun r => r.pmra))
    (data.map (fun r => r.pmdec)) pmra_center pmdec_center _ 0 _ c0 hpos hfind]

/-- Witness for count_stars_inside_ellipse_first_best at a concrete input:
the single data point (0, 0) lies inside every sampled ellipse, the maximal
inside-count 1 is positive, and the search returns the earliest maximal
combination (width 2, height 3, inclination 0); the 2-step width grid
np.linspace 2 4 2 contains both of its endpoints. -/
theorem count_stars_inside_ellipse_first_best_witness :
    count_stars_inside_ellipse (fun _ => -1) (fun _ => 0) 0 0
      [{ pmra := 0, pmdec := 0, parallax := 0, phot_g_mean_mag := 0,
         phot_bp_mean_mag := 0, phot_rp_mean_mag := 0, astrometric_gof_al := 0 }]
      ⟨2, 4, 2⟩ ⟨3, 3, 1⟩ ⟨0, 0, 1⟩ =
      { center_x := 0, center_y := 0, width := 2, height := 3, inclination := 0 } ∧
    (2 : ℚ) ∈ np_linspace 2 4 2 ∧ (4 : ℚ) ∈ np_linspace 2 4 2 := by
  have h := count_stars_inside_ellipse_first_best (fun _ => -1) (fun _ => 0) 0 0
      [{ pmra := 0, pmdec := 0, parallax := 0, phot_g_mean_mag := 0,
         phot_bp_mean_mag := 0, phot_rp_mean_mag := 0, astrometric_gof_al := 0 }]
      ⟨2, 4, 2⟩ ⟨3, 3, 1⟩ ⟨0, 0, 1⟩ (2, 3, 0)
      (by norm_num [montecarlo_best_count, ellipse_combos, stars_inside_count,
        DefineEllipse, np_linspace, List.range_succ, List.zip, List.countP,
        List.countP.go])
      (by norm_num [montecarlo_first_best, montecarlo_best_count, ellipse_combos,
        stars_inside_count, DefineEllipse, np_linspace, List.range_succ, List.zip,
        List.countP, List.countP.go, List.find?])
  exact ⟨h.1, (h.2.1 (by norm_num)).1, (h.2.1 (by norm_num)).2⟩

/-- Counterexample to the literal claim C7: with the single data point
(100, 0) no sampled ellipse contains any point, so the maximal inside-count
is 0; the earliest non-degenerate combination attaining that maximum is
(width 2, height 3, inclination 0), yet the search returns the all-zero
EllipseClass, which differs from it: with an all-zero maximal count the
returned ellipse is NOT the earliest maximal combination. -/
theorem count_stars_zero_max_claim_false :
    count_stars_inside_ellipse (fun _ => -1) (fun _ => 0) 0 0
      [{ pmra := 100, pmdec := 0, parallax := 0, phot_g_mean_mag := 0,
         phot_bp_mean_mag := 0, phot_rp_mean_mag := 0, astrometric_gof_al := 0 }]
      ⟨2, 4, 2⟩ ⟨3, 3, 1⟩ ⟨0, 0, 1⟩ =
      { center_x := 0, center_y := 0, width := 0, height := 0, inclination := 0 } ∧
    montecarlo_first_best (fun _ => -1) (fun _ => 0) [100] [0] 0 0
      (ellipse_combos (np_linspace 2 4 2) (np_linspace 3 3 1) (np_linspace 0 0 1)) =
      some (2, 3, 0) ∧
    ({ center_x := 0, center_y := 0, width := 0, height := 0, inclination := 0 } : EllipseClass) ≠
      { center_x := 0, center_y := 0, width := 2, height := 3, inclination := 0 } := by
  refine ⟨?_, ?_, ?_⟩
  · norm_num [count_stars_inside_ellipse, np_linspace, List.range_succ,
      loop_Montecarlo, montecarlo_step, stars_inside_count, DefineEllipse,
      check_if_max_value, List.zip, List.countP, List.countP.go]
  · norm_num [montecarlo_first_best, montecarlo_best_count, stars_inside_count,
      DefineEllipse, ellipse_combos, np_linspace, List.range_succ, List.zip,
      List.countP, List.countP.go, List.find?]
  · intro hcontra
    have hw := congrArg EllipseClass.width hcontra
    norm_num at hw
